import Mathlib

/-!
Shallow embedding of the AgroMath marketplace core (src/app.py): order
lifecycle state machine, quote engine, notification fan-out, tracking and
chat gating.  Database tables become lists of rows; SQL autoincrement ids
become explicit counters; each Flask handler becomes a function from a
state (plus the authenticated caller and request parameters) to a new
state and a result.  Request-level concerns that the handlers share are
modelled once: role gating (the role_required decorator) is an explicit
check at the top of each handler, and every flashed error message is
mapped to the error taxonomy used by the handlers (NotFound for a missing
or un-owned row, InvalidState for a lifecycle precondition, NotAuthorized
for role or assignment failures, and so on).  Floating-point coordinates
are modelled as rationals.
-/

namespace Agromath

/-- Order lifecycle states (orders.status column). -/
inductive OrderStatus
  | NEEDS_QUOTES
  | QUOTE_ACCEPTED
  | IN_TRANSIT
  | ARRIVED
  | DELIVERED
  | CANCELLED
deriving DecidableEq, Repr

/-- Quote lifecycle states (quotes.status column). -/
inductive QuoteStatus
  | SUBMITTED
  | DECLINED
  | ACCEPTED
  | DELIVERED
deriving DecidableEq, Repr

/-- users table row (the columns the core handlers read).  Roles are the
strings "buyer", "farmer", "transporter" as in the source. -/
structure User where
  id : Nat
  role : String
  is_active : Bool
  name : Option String
  hub : Option String
  hub_lat : Option Rat
  hub_lng : Option Rat
  hub_accuracy : Option Rat
deriving DecidableEq, Repr

/-- products table row. -/
structure Product where
  id : Nat
  farmer_user_id : Nat
  name : String
  unit : String
  price : Int
  is_active : Bool
deriving DecidableEq, Repr

/-- orders table row. -/
structure Order where
  id : String
  buyer_user_id : Nat
  origin : String
  dest : String
  status : OrderStatus
  accepted_quote_id : Option Nat
deriving DecidableEq, Repr

/-- order_items table row. -/
structure OrderItem where
  id : Nat
  order_id : String
  product_id : Nat
  qty : Int
  unit_price : Int
deriving DecidableEq, Repr

/-- quotes table row. -/
structure Quote where
  id : Nat
  order_id : String
  transporter_user_id : Nat
  price : Int
  eta_hours : Int
  status : QuoteStatus
deriving DecidableEq, Repr

/-- notifications table row. -/
structure Notification where
  id : Nat
  user_id : Nat
  kind : String
  message : String
  link : String
deriving DecidableEq, Repr

/-- order_locations table row (role is one of "origin", "dropoff",
"transporter"). -/
structure OrderLocation where
  id : Nat
  order_id : String
  user_id : Nat
  role : String
  lat : Rat
  lng : Rat
  accuracy : Option Rat
deriving DecidableEq, Repr

/-- order_messages table row; the message text is modelled as a list of
characters (a Python string). -/
structure OrderMessage where
  id : Nat
  order_id : String
  sender_user_id : Nat
  message : List Char
deriving DecidableEq, Repr

/-- The persistent store: one list per table, plus the autoincrement
counters.  Inserts append at the tail, so ids grow along each list. -/
structure St where
  users : List User
  products : List Product
  orders : List Order
  order_items : List OrderItem
  quotes : List Quote
  notifications : List Notification
  order_locations : List OrderLocation
  order_messages : List OrderMessage
  next_quote_id : Nat
  next_notification_id : Nat
  next_location_id : Nat
  next_message_id : Nat
  next_item_id : Nat
deriving DecidableEq, Repr

/-- Error taxonomy for handler outcomes (spec section 7).  Each handler
branch that flashes an error and redirects without writing is mapped to
the taxonomy member matching the condition of that branch. -/
inductive Err
  | notFound
  | invalidState
  | notAuthorized
  | forbidden
  | alreadyResolved
  | invalidInput
  | chatNotActive
  | emptyMessage
  | badPayload
  | dbError
deriving DecidableEq, Repr

/-- Handler result: success or a member of the error taxonomy. -/
inductive Res
  | ok
  | err (e : Err)
deriving DecidableEq, Repr

/-- notify_user: appends one durable notification row; a falsy (zero)
user id is skipped, mirroring the `if not user_id: return` guard. -/
def notifyUser (s : St) (user_id : Nat) (kind message link : String) : St :=
  if user_id = 0 then s
  else
    { s with
      notifications :=
        s.notifications ++ [⟨s.next_notification_id, user_id, kind, message, link⟩],
      next_notification_id := s.next_notification_id + 1 }

/-- Distinct farmer ids of the products appearing in an order's items
(SELECT DISTINCT p.farmer_user_id FROM order_items oi JOIN products p). -/
def orderFarmerIds (s : St) (order_id : String) : List Nat :=
  ((s.order_items.filter (fun oi => oi.order_id = order_id)).filterMap
    (fun oi => (s.products.find? (fun p => p.id = oi.product_id)).map
      (fun p => p.farmer_user_id))).dedup

/-- Fan a notification out to every farmer whose product is in the order. -/
def notifyFarmers (s : St) (order_id kind message link : String) : St :=
  (orderFarmerIds s order_id).foldl (fun acc fid => notifyUser acc fid kind message link) s

/-- SELECT * FROM orders WHERE id = oid. -/
def orderById? (s : St) (oid : String) : Option Order :=
  s.orders.find? (fun o => o.id = oid)

/-- SELECT * FROM orders WHERE id = oid AND buyer_user_id = uid. -/
def orderOfBuyer? (s : St) (oid : String) (uid : Nat) : Option Order :=
  s.orders.find? (fun o => o.id = oid ∧ o.buyer_user_id = uid)

/-- SELECT * FROM quotes WHERE id = qid AND order_id = oid. -/
def quoteOfOrder? (s : St) (qid : Nat) (oid : String) : Option Quote :=
  s.quotes.find? (fun q => q.id = qid ∧ q.order_id = oid)

/-- SELECT * FROM quotes WHERE id = qid. -/
def quoteById? (s : St) (qid : Nat) : Option Quote :=
  s.quotes.find? (fun q => q.id = qid)

/-- SELECT * FROM quotes WHERE id = qid AND transporter_user_id = uid. -/
def quoteByIdAndTransporter? (s : St) (qid uid : Nat) : Option Quote :=
  s.quotes.find? (fun q => q.id = qid ∧ q.transporter_user_id = uid)

/-- Facts carried by a successful order lookup. -/
lemma orderById?_some {s : St} {oid : String} {o : Order}
    (h : orderById? s oid = some o) : o ∈ s.orders ∧ o.id = oid := by
  unfold orderById? at h
  refine ⟨List.mem_of_find?_eq_some h, ?_⟩
  have := List.find?_some h
  simpa using this

/-- Facts carried by a successful buyer-scoped order lookup. -/
lemma orderOfBuyer?_some {s : St} {oid : String} {uid : Nat} {o : Order}
    (h : orderOfBuyer? s oid uid = some o) :
    o ∈ s.orders ∧ o.id = oid ∧ o.buyer_user_id = uid := by
  unfold orderOfBuyer? at h
  refine ⟨List.mem_of_find?_eq_some h, ?_⟩
  have := List.find?_some h
  simp only [Bool.and_eq_true, decide_eq_true_eq] at this
  exact this

/-- Facts carried by a successful order-scoped quote lookup. -/
lemma quoteOfOrder?_some {s : St} {qid : Nat} {oid : String} {q : Quote}
    (h : quoteOfOrder? s qid oid = some q) :
    q ∈ s.quotes ∧ q.id = qid ∧ q.order_id = oid := by
  unfold quoteOfOrder? at h
  refine ⟨List.mem_of_find?_eq_some h, ?_⟩
  have := List.find?_some h
  simp only [Bool.and_eq_true, decide_eq_true_eq] at this
  exact this

/-- Facts carried by a successful transporter-scoped quote lookup. -/
lemma quoteByIdAndTransporter?_some {s : St} {qid uid : Nat} {q : Quote}
    (h : quoteByIdAndTransporter? s qid uid = some q) :
    q ∈ s.quotes ∧ q.id = qid ∧ q.transporter_user_id = uid := by
  unfold quoteByIdAndTransporter? at h
  refine ⟨List.mem_of_find?_eq_some h, ?_⟩
  have := List.find?_some h
  simp only [Bool.and_eq_true, decide_eq_true_eq] at this
  exact this


/-- SELECT * FROM products WHERE id = pid AND is_active = 1. -/
def activeProductById? (s : St) (pid : Nat) : Option Product :=
  s.products.find? (fun p => p.id = pid ∧ p.is_active)

/-- Append one order_locations row. -/
def insertLocation (s : St) (oid : String) (uid : Nat) (role : String)
    (la ln : Rat) (acc : Option Rat) : St :=
  { s with
    order_locations := s.order_locations ++
      [⟨s.next_location_id, oid, uid, role, la, ln, acc⟩],
    next_location_id := s.next_location_id + 1 }

/-- Append one order_locations row when both coordinates are present
(the `if lat is not None and lng is not None` guards of order_place). -/
def maybeInsertLocation (s : St) (oid : String) (uid : Nat) (role : String)
    (la ln : Option Rat) (acc : Option Rat) : St :=
  match la, ln with
  | some la2, some ln2 => insertLocation s oid uid role la2 ln2 acc
  | _, _ => s

/-- Record the farmer's hub as the order's origin ping, when the farmer
row exists and carries coordinates. -/
def originLocation (s : St) (oid : String) (farmer_id : Nat) (f? : Option User) : St :=
  match f? with
  | some f => maybeInsertLocation s oid farmer_id "origin" f.hub_lat f.hub_lng f.hub_accuracy
  | none => s

/-- quote_accept (POST /quote/accept): buyer accepts one quote.  The order
must belong to the caller and the quote to the order; a DECLINED quote is
rejected (AlreadyResolved).  No check of the order's current status is
performed.  Side effects: the chosen quote becomes ACCEPTED, every other
non-DELIVERED quote on the order becomes DECLINED, the order's status is
set to QUOTE_ACCEPTED and accepted_quote_id to the chosen quote, the
winning transporter is notified QUOTE_ACCEPTED, and the transporter of
every other quote on the order is notified QUOTE_DECLINED. -/
def quote_accept (s : St) (u : User) (quote_id : Nat) (order_id : String) : St × Res :=
  if u.role ≠ "buyer" then (s, .err .notAuthorized) else
  match orderOfBuyer? s order_id u.id with
  | none => (s, .err .notFound)
  | some _ =>
    match quoteOfOrder? s quote_id order_id with
    | none => (s, .err .notFound)
    | some q =>
      if q.status = .DECLINED then (s, .err .alreadyResolved) else
      let quotes1 := s.quotes.map (fun q2 =>
        if q2.id = quote_id then { q2 with status := QuoteStatus.ACCEPTED } else q2)
      let quotes2 := quotes1.map (fun q2 =>
        if q2.order_id = order_id ∧ q2.id ≠ quote_id ∧ q2.status ≠ QuoteStatus.DELIVERED
        then { q2 with status := QuoteStatus.DECLINED } else q2)
      let orders2 := s.orders.map (fun o2 =>
        if o2.id = order_id
        then { o2 with status := OrderStatus.QUOTE_ACCEPTED,
                       accepted_quote_id := some quote_id }
        else o2)
      let s1 := { s with quotes := quotes2, orders := orders2 }
      let s2 := notifyUser s1 q.transporter_user_id "QUOTE_ACCEPTED"
        ("Your quote was accepted for order " ++ order_id ++ ".") "/orders"
      let losers := s2.quotes.filter (fun q2 => q2.order_id = order_id ∧ q2.id ≠ quote_id)
      let s3 := losers.foldl (fun acc q2 =>
        notifyUser acc q2.transporter_user_id "QUOTE_DECLINED"
          ("Another quote was accepted for order " ++ order_id ++ ".") "/orders") s2
      (s3, .ok)

/-- quote_decline (POST /quote/decline): buyer declines one quote.  The
UPDATE is conditional on the quote belonging to the order and being
SUBMITTED; when no row matches the call still reports success, and a
QUOTE_DECLINED notification is sent to the transporter of whatever quote
carries that id (looked up without an order check). -/
def quote_decline (s : St) (u : User) (quote_id : Nat) (order_id : String) : St × Res :=
  if u.role ≠ "buyer" then (s, .err .notAuthorized) else
  match orderOfBuyer? s order_id u.id with
  | none => (s, .err .notFound)
  | some _ =>
    let quotes2 := s.quotes.map (fun q2 =>
      if q2.id = quote_id ∧ q2.order_id = order_id ∧ q2.status = QuoteStatus.SUBMITTED
      then { q2 with status := QuoteStatus.DECLINED } else q2)
    let s1 := { s with quotes := quotes2 }
    let s2 : St := match quoteById? s1 quote_id with
      | some q => notifyUser s1 q.transporter_user_id "QUOTE_DECLINED"
          ("Buyer declined your quote for order " ++ order_id ++ ".") "/orders"
      | none => s1
    (s2, .ok)

/-- transport_quote (POST /transport/quote): transporter submits a bid.
A non-positive price is rejected before the order is read; the order must
exist and be in NEEDS_QUOTES; on success a SUBMITTED quote is inserted
and the order's buyer is notified QUOTE. -/
def transport_quote (s : St) (u : User) (order_id : String)
    (price eta_hours : Int) : St × Res :=
  if u.role ≠ "transporter" then (s, .err .notAuthorized) else
  if price ≤ 0 then (s, .err .invalidInput) else
  match orderById? s order_id with
  | none => (s, .err .notFound)
  | some o =>
    if o.status ≠ .NEEDS_QUOTES then (s, .err .invalidState) else
    let s1 := { s with
      quotes := s.quotes ++
        [⟨s.next_quote_id, order_id, u.id, price, eta_hours, .SUBMITTED⟩],
      next_quote_id := s.next_quote_id + 1 }
    let s2 := notifyUser s1 o.buyer_user_id "QUOTE"
      ("New transport quote received for order " ++ order_id ++ ".") "/orders"
    (s2, .ok)

/-- transport_start_trip (POST /transport/start): QUOTE_ACCEPTED to
IN_TRANSIT, by the transporter holding the order's accepted quote with
that quote ACCEPTED; notifies the buyer and the order's farmers. -/
def transport_start_trip (s : St) (u : User) (order_id : String) : St × Res :=
  if u.role ≠ "transporter" then (s, .err .notAuthorized) else
  match orderById? s order_id with
  | none => (s, .err .notFound)
  | some o =>
    if o.status ≠ .QUOTE_ACCEPTED then (s, .err .invalidState) else
    match o.accepted_quote_id with
    | none => (s, .err .notAuthorized)
    | some aqid =>
    match quoteByIdAndTransporter? s aqid u.id with
    | none => (s, .err .notAuthorized)
    | some q =>
      if q.status ≠ .ACCEPTED then (s, .err .notAuthorized) else
      let s1 := { s with orders := s.orders.map (fun o2 =>
        if o2.id = order_id then { o2 with status := OrderStatus.IN_TRANSIT } else o2) }
      let s2 := notifyUser s1 o.buyer_user_id "IN_TRANSIT"
        ("Delivery started for order " ++ order_id ++ ".") ("/track/" ++ order_id)
      let s3 := notifyFarmers s2 order_id "IN_TRANSIT"
        ("Delivery started for order " ++ order_id ++ ".") ("/track/" ++ order_id)
      (s3, .ok)

/-- transport_arrive (POST /transport/arrive): IN_TRANSIT to ARRIVED,
same authorization rule as starting the trip. -/
def transport_arrive (s : St) (u : User) (order_id : String) : St × Res :=
  if u.role ≠ "transporter" then (s, .err .notAuthorized) else
  match orderById? s order_id with
  | none => (s, .err .notFound)
  | some o =>
    if o.status ≠ .IN_TRANSIT then (s, .err .invalidState) else
    match o.accepted_quote_id with
    | none => (s, .err .notAuthorized)
    | some aqid =>
    match quoteByIdAndTransporter? s aqid u.id with
    | none => (s, .err .notAuthorized)
    | some q =>
      if q.status ≠ .ACCEPTED then (s, .err .notAuthorized) else
      let s1 := { s with orders := s.orders.map (fun o2 =>
        if o2.id = order_id then { o2 with status := OrderStatus.ARRIVED } else o2) }
      let s2 := notifyUser s1 o.buyer_user_id "ARRIVED"
        ("Transporter arrived for order " ++ order_id ++ ".") ("/track/" ++ order_id)
      let s3 := notifyFarmers s2 order_id "ARRIVED"
        ("Transporter arrived for order " ++ order_id ++ ".") ("/track/" ++ order_id)
      (s3, .ok)

/-- transport_deliver (POST /transport/deliver): ARRIVED to DELIVERED,
same authorization rule; also marks the accepted quote DELIVERED. -/
def transport_deliver (s : St) (u : User) (order_id : String) : St × Res :=
  if u.role ≠ "transporter" then (s, .err .notAuthorized) else
  match orderById? s order_id with
  | none => (s, .err .notFound)
  | some o =>
    if o.status ≠ .ARRIVED then (s, .err .invalidState) else
    match o.accepted_quote_id with
    | none => (s, .err .notAuthorized)
    | some aqid =>
    match quoteByIdAndTransporter? s aqid u.id with
    | none => (s, .err .notAuthorized)
    | some q =>
      if q.status ≠ .ACCEPTED then (s, .err .notAuthorized) else
      let s1 := { s with
        quotes := s.quotes.map (fun q2 =>
          if q2.id = q.id then { q2 with status := QuoteStatus.DELIVERED } else q2),
        orders := s.orders.map (fun o2 =>
          if o2.id = order_id then { o2 with status := OrderStatus.DELIVERED } else o2) }
      let s2 := notifyUser s1 o.buyer_user_id "DELIVERED"
        ("Order " ++ order_id ++ " marked delivered.") "/orders"
      let s3 := notifyFarmers s2 order_id "DELIVERED"
        ("Order " ++ order_id ++ " has been delivered.") "/orders"
      (s3, .ok)

/-- Python `a or b` on optional strings: an absent or empty string falls
through to the alternative. -/
def orElseStr (a : Option String) (b : String) : String :=
  match a with
  | some x => if x = "" then b else x
  | none => b

/-- order_place (POST /order/place): the buyer checks out the session
cart (an association list of product id to quantity, in insertion order).
An empty cart, or a cart none of whose entries maps to an active product,
is rejected; entries without an active product are otherwise skipped;
the active products must all belong to a single farmer or the call is
rejected.  The fresh random order id is a parameter; the primary-key
constraint on orders.id makes a colliding insert fail with no effect.
On success the order is created in NEEDS_QUOTES, origin/dropoff location
rows are recorded when coordinates are known, one order_item per valid
cart entry snapshots the product's current price, every active
transporter and every involved farmer is notified NEW_ORDER. -/
def order_place (s : St) (u : User) (dest : String)
    (dest_lat dest_lng dest_accuracy : Option Rat)
    (cart : List (Nat × Int)) (oid : String) : St × Res :=
  if u.role ≠ "buyer" then (s, .err .notAuthorized) else
  if cart = [] then (s, .err .invalidInput) else
  if cart.all (fun e => (activeProductById? s e.1).isNone) then (s, .err .invalidInput) else
  let farmerIds :=
    (cart.filterMap (fun e => (activeProductById? s e.1).map (fun p => p.farmer_user_id))).dedup
  match farmerIds with
  | [] => (s, .err .invalidInput)
  | _ :: _ :: _ => (s, .err .invalidInput)
  | [farmer_id] =>
    if s.orders.any (fun o => o.id = oid) then (s, .err .dbError) else
    let farmer? := s.users.find? (fun us => us.id = farmer_id)
    let origin := match farmer? with
      | some f => orElseStr f.hub (orElseStr f.name "Farmer pickup")
      | none => "Farmer pickup"
    let s1 := { s with orders := s.orders ++ [⟨oid, u.id, origin, dest, .NEEDS_QUOTES, none⟩] }
    let s2 := originLocation s1 oid farmer_id farmer?
    let s3 := maybeInsertLocation s2 oid u.id "dropoff" dest_lat dest_lng dest_accuracy
    let s4 := cart.foldl (fun (acc : St) (e : Nat × Int) =>
      match activeProductById? s e.1 with
      | some p =>
        { acc with
          order_items := acc.order_items ++ [⟨acc.next_item_id, oid, e.1, e.2, p.price⟩],
          next_item_id := acc.next_item_id + 1 }
      | none => acc) s3
    let s5 := (s4.users.filter (fun us => us.role = "transporter" ∧ us.is_active)).foldl
      (fun acc tr => notifyUser acc tr.id "NEW_ORDER"
        ("New order " ++ oid ++ " needs transport quotes.") "/orders") s4
    let s6 := farmerIds.foldl (fun acc fid => notifyUser acc fid "NEW_ORDER"
      ("New order " ++ oid ++ " includes your products.") "/orders") s5
    (s6, .ok)

/-- Ordering of notification rows by id, the ORDER BY id ASC of the
polling query. -/
def notifLe (a b : Notification) : Prop := a.id ≤ b.id

instance : DecidableRel notifLe := fun a b => Nat.decLe a.id b.id

instance : IsTotal Notification notifLe := ⟨fun a b => Nat.le_total a.id b.id⟩

instance : IsTrans Notification notifLe := ⟨fun _ _ _ => Nat.le_trans⟩

/-- Response of the notification polling endpoint. -/
structure PollResp where
  latest_id : Int
  items : List Notification
deriving DecidableEq, Repr

/-- api_notifications (GET /api/notifications): rows of the logged-in
user with id greater than the client cursor, ascending by id, limited to
25; the reported high-water mark is the last returned id, or the cursor
itself when nothing is returned.  A read-only endpoint. -/
def api_notifications (s : St) (u : User) (since : Int) : PollResp :=
  let rows := s.notifications.filter (fun n => n.user_id = u.id ∧ (n.id : Int) > since)
  let items := (rows.insertionSort notifLe).take 25
  let latest : Int := match items.getLast? with
    | some n => (n.id : Int)
    | none => since
  ⟨latest, items⟩

/-- accepted_transporter_id: the transporter of the order's accepted
quote, when the order exists, accepted_quote_id is set and truthy, and
that id resolves to a quote of this order. -/
def accepted_transporter_id (s : St) (order_id : String) : Option Nat :=
  match orderById? s order_id with
  | none => none
  | some o =>
    match o.accepted_quote_id with
    | none => none
    | some aqid =>
      if aqid = 0 then none else
      match quoteOfOrder? s aqid order_id with
      | none => none
      | some q => some q.transporter_user_id

/-- order_participant_ids: buyer, farmers of the order's products, and
the accepted transporter when one exists (a truthy transporter id). -/
def order_participant_ids (s : St) (order_id : String) : Finset Nat :=
  match orderById? s order_id with
  | none => ∅
  | some o =>
    let base : Finset Nat := insert o.buyer_user_id (orderFarmerIds s order_id).toFinset
    match accepted_transporter_id s order_id with
    | some t => if t ≠ 0 then insert t base else base
    | none => base

/-- api_order_track (GET /api/order/id/track): read-only; denied with
Forbidden when the participant set is empty or the caller is outside it. -/
def api_order_track (s : St) (u : User) (order_id : String) : St × Res :=
  let allowed := order_participant_ids s order_id
  if allowed = ∅ ∨ u.id ∉ allowed then (s, .err .forbidden)
  else (s, .ok)

/-- api_order_messages (GET /api/order/id/messages): read-only; the same
participant gate as tracking. -/
def api_order_messages (s : St) (u : User) (order_id : String) (_since : Int) : St × Res :=
  let allowed := order_participant_ids s order_id
  if allowed = ∅ ∨ u.id ∉ allowed then (s, .err .forbidden)
  else (s, .ok)

/-- Python str.strip on a character list: drop leading and trailing
whitespace. -/
def pyStrip (l : List Char) : List Char :=
  ((l.dropWhile Char.isWhitespace).reverse.dropWhile Char.isWhitespace).reverse

/-- api_order_send_message (POST /api/order/id/messages): participant
gate, then the chat-active gate (an accepted transporter must exist),
then the message is stripped; an empty result is rejected and a result
longer than 2000 characters is silently truncated.  One row is appended
and the other participants are notified CHAT (the Python set iteration is
modelled as ascending order). -/
def api_order_send_message (s : St) (u : User) (order_id : String)
    (message : List Char) : St × Res :=
  let allowed := order_participant_ids s order_id
  if allowed = ∅ ∨ u.id ∉ allowed then (s, .err .forbidden) else
  match accepted_transporter_id s order_id with
  | none => (s, .err .chatNotActive)
  | some t =>
    if t = 0 then (s, .err .chatNotActive) else
    let msg0 := pyStrip message
    if msg0 = [] then (s, .err .emptyMessage) else
    let msg := if msg0.length > 2000 then msg0.take 2000 else msg0
    let s1 := { s with
      order_messages := s.order_messages ++ [⟨s.next_message_id, order_id, u.id, msg⟩],
      next_message_id := s.next_message_id + 1 }
    let s2 := (allowed.sort (· ≤ ·)).foldl (fun acc uid =>
      if uid = u.id then acc
      else notifyUser acc uid "CHAT" ("New message on order " ++ order_id ++ ".")
        ("/chat/" ++ order_id)) s1
    (s2, .ok)

/-- GPS bounds accepted by the location handler: latitude in [-90, 90]
and longitude in [-180, 180]. -/
def inGpsBounds (la ln : Rat) : Prop :=
  -90 ≤ la ∧ la ≤ 90 ∧ -180 ≤ ln ∧ ln ≤ 180

instance (la ln : Rat) : Decidable (inGpsBounds la ln) := by
  unfold inGpsBounds; infer_instance

/-- api_order_location (POST /api/order/id/location): transporter role,
then the accepted-transporter gate, then payload parsing (absent
coordinates fail), then the GPS bounds check; one transporter location
row is appended on success. -/
def api_order_location (s : St) (u : User) (order_id : String)
    (lat lng accuracy : Option Rat) : St × Res :=
  if u.role ≠ "transporter" then (s, .err .notAuthorized) else
  match accepted_transporter_id s order_id with
  | none => (s, .err .forbidden)
  | some t =>
    if t = 0 ∨ u.id ≠ t then (s, .err .forbidden) else
    match lat, lng with
    | some la, some ln =>
      if ¬ inGpsBounds la ln then (s, .err .invalidInput) else
      let s1 := { s with
        order_locations := s.order_locations ++
          [⟨s.next_location_id, order_id, u.id, "transporter", la, ln, accuracy⟩],
        next_location_id := s.next_location_id + 1 }
      (s1, .ok)
    | _, _ => (s, .err .badPayload)


/-- Sample rows used to instantiate the proved contracts on concrete
states. -/
def uBuyer : User := ⟨1, "buyer", true, some "Bea", none, none, none, none⟩

def uFarmer : User := ⟨2, "farmer", true, some "Fay", some "Jos", some 9, some 8, some 5⟩

def uTrans1 : User := ⟨3, "transporter", true, some "Tom", none, none, none, none⟩

def uTrans2 : User := ⟨4, "transporter", true, some "Tia", none, none, none, none⟩

def pYam : Product := ⟨1, 2, "Yam", "bag", 100, true⟩

def pRice : Product := ⟨2, 2, "Rice", "bag", 200, true⟩

/-- A state whose single order has an accepted quote (quote 1, transporter
3) and sits in QUOTE_ACCEPTED. -/
def stQA : St :=
  { users := [uBuyer, uFarmer, uTrans1, uTrans2]
    products := [pYam]
    orders := [⟨"ORD-1", 1, "Jos", "Abuja", .QUOTE_ACCEPTED, some 1⟩]
    order_items := [⟨1, "ORD-1", 1, 3, 100⟩]
    quotes := [⟨1, "ORD-1", 3, 500, 24, .ACCEPTED⟩, ⟨2, "ORD-1", 4, 600, 12, .DECLINED⟩]
    notifications := []
    order_locations := []
    order_messages := []
    next_quote_id := 3
    next_notification_id := 1
    next_location_id := 1
    next_message_id := 1
    next_item_id := 2 }

/-- Participant set as the specification phrases it: the order's buyer,
the distinct farmers of the products in the order's items, and the
transporter of the order's accepted quote when accepted_quote_id is set
and references a quote of this order. -/
def specParticipants (s : St) (o : Order) : Finset Nat :=
  {o.buyer_user_id} ∪ (orderFarmerIds s o.id).toFinset ∪
    (match o.accepted_quote_id with
     | some aqid =>
       match quoteOfOrder? s aqid o.id with
       | some q => ({q.transporter_user_id} : Finset Nat)
       | none => (∅ : Finset Nat)
     | none => (∅ : Finset Nat))

/-- Claim C7.  For an existing order (with well-formed nonzero quote and
transporter ids, as the autoincrement schema guarantees) the computed
participant set is exactly the specification's set, and a caller outside
it is denied both the tracking and the chat-messages endpoints with
Forbidden and no state change. -/
theorem order_participants_contract (s : St) (u : User) (order_id : String) (o : Order)
    (since : Int)
    (hfind : orderById? s order_id = some o)
    (hq0 : ∀ q ∈ s.quotes, q.id ≠ 0 ∧ q.transporter_user_id ≠ 0) :
    order_participant_ids s order_id = specParticipants s o ∧
    (u.id ∉ order_participant_ids s order_id →
      api_order_track s u order_id = (s, .err .forbidden) ∧
      api_order_messages s u order_id since = (s, .err .forbidden)) := by
  have hoid : o.id = order_id := (orderById?_some hfind).2
  constructor
  · unfold order_participant_ids specParticipants accepted_transporter_id
    rw [hfind, hoid]
    cases haq : o.accepted_quote_id with
    | none =>
      simp only [haq]
      ext x
      simp [Finset.mem_union, Finset.mem_insert]
    | some aqid =>
      by_cases h0 : aqid = 0
      · subst h0
        have hnone : quoteOfOrder? s 0 order_id = none := by
          unfold quoteOfOrder?
          rw [List.find?_eq_none]
          intro q hq
          simp [(hq0 q hq).1]
        simp only [haq, hnone, if_pos rfl]
        ext x
        simp [Finset.mem_union, Finset.mem_insert]
      · cases hfq : quoteOfOrder? s aqid order_id with
        | none =>
          simp only [haq, hfq, if_neg h0]
          ext x
          simp [Finset.mem_union, Finset.mem_insert]
        | some q =>
          have hmem := (quoteOfOrder?_some hfq).1
          have ht0 := (hq0 q hmem).2
          simp only [haq, hfq, if_neg h0, ne_eq, ht0, not_false_eq_true, if_true]
          ext x
          simp [Finset.mem_union, Finset.mem_insert]
          tauto
  · intro hout
    constructor
    · unfold api_order_track
      simp [hout]
    · unfold api_order_messages
      simp [hout]

/-- Witness for claim C7 at stQA: the set is the buyer, the farmer and
the accepted transporter, and the outside transporter uTrans2 is denied. -/
theorem order_participants_contract_witness :
    order_participant_ids stQA "ORD-1" =
      specParticipants stQA ⟨"ORD-1", 1, "Jos", "Abuja", .QUOTE_ACCEPTED, some 1⟩ ∧
    api_order_track stQA ⟨9, "buyer", true, none, none, none, none, none⟩ "ORD-1" =
      (stQA, .err .forbidden) := by
  have hf : orderById? stQA "ORD-1" =
      some ⟨"ORD-1", 1, "Jos", "Abuja", .QUOTE_ACCEPTED, some 1⟩ := by decide
  have hq : ∀ q ∈ stQA.quotes, q.id ≠ 0 ∧ q.transporter_user_id ≠ 0 := by decide
  have hout : (⟨9, "buyer", true, none, none, none, none, none⟩ : User).id ∉
      order_participant_ids stQA "ORD-1" := by decide
  have h := order_participants_contract stQA
    ⟨9, "buyer", true, none, none, none, none, none⟩ "ORD-1"
    ⟨"ORD-1", 1, "Jos", "Abuja", .QUOTE_ACCEPTED, some 1⟩ 0 hf hq
  exact ⟨h.1, (h.2 hout).1⟩


/-- A fold whose steps leave a projection of the state unchanged leaves
it unchanged overall. -/
lemma foldl_proj_const {α β : Type} (g : St → α → St) (f : St → β)
    (h : ∀ acc x, f (g acc x) = f acc) :
    ∀ (l : List α) (s : St), f (l.foldl g s) = f s := by
  intro l
  induction l with
  | nil => intro s; rfl
  | cons a t ih => intro s; rw [List.foldl_cons, ih, h]

/-- notify_user does not touch the chat log. -/
lemma notifyUser_order_messages (s : St) (uid : Nat) (k m li : String) :
    (notifyUser s uid k m li).order_messages = s.order_messages := by
  unfold notifyUser; split <;> rfl

/-- Claim C8.  Out-of-range coordinates never write a location row and,
for the accepted transporter, surface as InvalidInput; in-range
coordinates from the accepted transporter append exactly one transporter
location row. -/
theorem location_ping_contract (s : St) (u : User) (order_id : String)
    (la ln : Rat) (acc : Option Rat) :
    (¬ inGpsBounds la ln →
      (api_order_location s u order_id (some la) (some ln) acc).1 = s ∧
      (api_order_location s u order_id (some la) (some ln) acc).2 ≠ .ok ∧
      (u.role = "transporter" → accepted_transporter_id s order_id = some u.id →
        u.id ≠ 0 →
        api_order_location s u order_id (some la) (some ln) acc =
          (s, .err .invalidInput))) ∧
    (inGpsBounds la ln → u.role = "transporter" →
      accepted_transporter_id s order_id = some u.id → u.id ≠ 0 →
      api_order_location s u order_id (some la) (some ln) acc =
        ({ s with
            order_locations := s.order_locations ++
              [⟨s.next_location_id, order_id, u.id, "transporter", la, ln, acc⟩],
            next_location_id := s.next_location_id + 1 }, .ok)) := by
  constructor
  · intro hb
    refine ⟨?_, ?_, ?_⟩
    · unfold api_order_location
      split
      · rfl
      · split
        · rfl
        · split
          · rfl
          · simp [hb]
    · unfold api_order_location
      split
      · simp
      · split
        · simp
        · split
          · simp
          · simp [hb]
    · intro hrole hat hz
      unfold api_order_location
      rw [hat]
      simp [hrole, hz, hb]
  · intro hb hrole hat hz
    unfold api_order_location
    rw [hat]
    simp [hrole, hz, hb]

/-- Witness for claim C8: with the accepted transporter of stQA, an
out-of-range latitude of 91 is rejected InvalidInput with no row, and an
in-range ping appends one transporter row. -/
theorem location_ping_contract_witness :
    api_order_location stQA uTrans1 "ORD-1" (some 91) (some 8) none =
      (stQA, .err .invalidInput) ∧
    (api_order_location stQA uTrans1 "ORD-1" (some 9) (some 8) none).1.order_locations =
      [⟨1, "ORD-1", 3, "transporter", 9, 8, none⟩] := by
  have h91 := location_ping_contract stQA uTrans1 "ORD-1" 91 8 none
  have h9 := location_ping_contract stQA uTrans1 "ORD-1" 9 8 none
  constructor
  · exact (h91.1 (by decide)).2.2 rfl (by decide) (by decide)
  · rw [h9.2 (by decide) rfl (by decide) (by decide)]
    rfl


/-- The first element surviving dropWhile fails the predicate. -/
lemma dropWhile_head_false (p : Char → Bool) :
    ∀ (l : List Char) a t, l.dropWhile p = a :: t → p a = false := by
  intro l
  induction l with
  | nil => intro a t h; simp [List.dropWhile] at h
  | cons b l2 ih =>
    intro a t h
    rw [List.dropWhile_cons] at h
    by_cases hb : p b
    · rw [if_pos hb] at h; exact ih a t h
    · rw [if_neg hb] at h
      cases h
      simpa using hb

/-- Stripping yields nothing exactly when the text is all whitespace. -/
lemma pyStrip_eq_nil_iff (l : List Char) :
    pyStrip l = [] ↔ ∀ c ∈ l, c.isWhitespace := by
  unfold pyStrip
  rw [List.reverse_eq_nil_iff, List.dropWhile_eq_nil_iff]
  constructor
  · intro h
    have hdr : l.dropWhile Char.isWhitespace = [] := by
      cases hd : l.dropWhile Char.isWhitespace with
      | nil => rfl
      | cons a t =>
        have ha := dropWhile_head_false Char.isWhitespace l a t hd
        have hmem : a ∈ (l.dropWhile Char.isWhitespace).reverse := by
          rw [hd]; simp
        have := h a hmem
        rw [ha] at this
        cases this
    rw [List.dropWhile_eq_nil_iff] at hdr
    exact hdr
  · intro h c hc
    exact h c ((List.dropWhile_suffix _).mem (List.mem_reverse.mp hc))

/-- The stripped text is a prefix of the left-stripped text. -/
lemma pyStrip_prefix (l : List Char) :
    ∃ t, pyStrip l ++ t = l.dropWhile Char.isWhitespace := by
  have h2 : ((l.dropWhile Char.isWhitespace).reverse.dropWhile Char.isWhitespace) <:+
      (l.dropWhile Char.isWhitespace).reverse := List.dropWhile_suffix _
  obtain ⟨u, hu⟩ := h2
  refine ⟨u.reverse, ?_⟩
  have h3 := congrArg List.reverse hu
  unfold pyStrip
  simpa [List.reverse_append] using h3

/-- A nonempty stripped text starts with a non-whitespace character. -/
lemma pyStrip_head_not_white {l : List Char} {a : Char} {t : List Char}
    (h : pyStrip l = a :: t) : a.isWhitespace = false := by
  obtain ⟨u, hu⟩ := pyStrip_prefix l
  rw [h, List.cons_append] at hu
  exact dropWhile_head_false _ l a _ hu.symm

/-- Truncating a nonempty stripped text keeps it nonempty after another
strip. -/
lemma pyStrip_take_ne_nil {l : List Char} (h : pyStrip l ≠ []) {n : Nat} (hn : 0 < n) :
    pyStrip ((pyStrip l).take n) ≠ [] := by
  cases hp : pyStrip l with
  | nil => exact absurd hp h
  | cons a t =>
    intro hcontra
    rw [pyStrip_eq_nil_iff] at hcontra
    have ha : a ∈ (a :: t).take n := by
      cases n with
      | zero => omega
      | succ m => simp
    have hw := hcontra a ha
    rw [pyStrip_head_not_white hp] at hw
    cases hw

/-- Claim C9.  A message that strips to nothing is rejected with no row
written; a stored chat message is the stripped text truncated to 2000
characters, hence nonempty (even after another strip) and at most 2000
characters long. -/
theorem chat_message_contract (s : St) (u : User) (order_id : String) (m : List Char) :
    (pyStrip m = [] →
      (api_order_send_message s u order_id m).1 = s ∧
      (api_order_send_message s u order_id m).2 ≠ .ok) ∧
    ((api_order_send_message s u order_id m).2 = .ok →
      (api_order_send_message s u order_id m).1.order_messages =
        s.order_messages ++ [⟨s.next_message_id, order_id, u.id, (pyStrip m).take 2000⟩] ∧
      (pyStrip m).take 2000 ≠ [] ∧
      pyStrip ((pyStrip m).take 2000) ≠ [] ∧
      ((pyStrip m).take 2000).length ≤ 2000) := by
  have htrunc : (if (pyStrip m).length > 2000 then (pyStrip m).take 2000 else pyStrip m) =
      (pyStrip m).take 2000 := by
    split
    · rfl
    · exact (List.take_of_length_le (by omega)).symm
  have hmsgs : ∀ (l : List Nat) (s0 : St),
      (l.foldl (fun acc uid =>
        if uid = u.id then acc
        else notifyUser acc uid "CHAT" ("New message on order " ++ order_id ++ ".")
          ("/chat/" ++ order_id)) s0).order_messages = s0.order_messages := by
    intro l
    induction l with
    | nil => intro s0; rfl
    | cons a t ih =>
      intro s0
      rw [List.foldl_cons, ih]
      split
      · rfl
      · rw [notifyUser_order_messages]
  by_cases hC1 : order_participant_ids s order_id = ∅ ∨ u.id ∉ order_participant_ids s order_id
  · have heq : api_order_send_message s u order_id m = (s, .err .forbidden) := by
      unfold api_order_send_message
      rw [if_pos hC1]
    rw [heq]
    exact ⟨fun _ => ⟨rfl, by simp⟩, fun hok => by cases hok⟩
  · cases hat : accepted_transporter_id s order_id with
    | none =>
      have heq : api_order_send_message s u order_id m = (s, .err .chatNotActive) := by
        unfold api_order_send_message
        rw [if_neg hC1, hat]
      rw [heq]
      exact ⟨fun _ => ⟨rfl, by simp⟩, fun hok => by cases hok⟩
    | some t =>
      by_cases ht : t = 0
      · have heq : api_order_send_message s u order_id m = (s, .err .chatNotActive) := by
          unfold api_order_send_message
          rw [if_neg hC1, hat]
          simp [ht]
        rw [heq]
        exact ⟨fun _ => ⟨rfl, by simp⟩, fun hok => by cases hok⟩
      · by_cases hm : pyStrip m = []
        · have heq : api_order_send_message s u order_id m = (s, .err .emptyMessage) := by
            unfold api_order_send_message
            rw [if_neg hC1, hat]
            simp [ht, hm]
          rw [heq]
          exact ⟨fun _ => ⟨rfl, by simp⟩, fun hok => by cases hok⟩
        · have heq : (api_order_send_message s u order_id m).1.order_messages =
              s.order_messages ++
                [⟨s.next_message_id, order_id, u.id, (pyStrip m).take 2000⟩] := by
            unfold api_order_send_message
            rw [if_neg hC1, hat]
            simp only [ht, if_false, hm, htrunc, hmsgs]
          refine ⟨fun hm2 => absurd hm2 hm, fun _ => ⟨heq, ?_, ?_, ?_⟩⟩
          · intro hcontra
            rcases List.take_eq_nil_iff.mp hcontra with h2 | h2
            · cases h2
            · exact hm h2
          · exact pyStrip_take_ne_nil hm (by omega)
          · rw [List.length_take]
            omega


/-- Witness for claim C9 at stQA: an all-whitespace message is rejected
with no state change, and a padded message is stored stripped. -/
theorem chat_message_contract_witness :
    (api_order_send_message stQA uBuyer "ORD-1" [' ', ' ']).1 = stQA ∧
    (api_order_send_message stQA uBuyer "ORD-1" [' ', 'h', 'i', ' ']).1.order_messages =
      [⟨1, "ORD-1", 1, ['h', 'i']⟩] := by
  have h1 := chat_message_contract stQA uBuyer "ORD-1" [' ', ' ']
  have h2 := chat_message_contract stQA uBuyer "ORD-1" [' ', 'h', 'i', ' ']
  refine ⟨(h1.1 (by decide)).1, ?_⟩
  have he := (h2.2 (by decide)).1
  rw [he]
  decide

/-- The mutating operations of the core, as one sum type for stating
invariant preservation. -/
inductive Op
  | placeOrder (u : User) (dest : String) (dlat dlng dacc : Option Rat)
      (cart : List (Nat × Int)) (oid : String)
  | submitQuote (u : User) (order_id : String) (price eta : Int)
  | acceptQuote (u : User) (quote_id : Nat) (order_id : String)
  | declineQuote (u : User) (quote_id : Nat) (order_id : String)
  | startTrip (u : User) (order_id : String)
  | arrive (u : User) (order_id : String)
  | deliver (u : User) (order_id : String)
  | sendMessage (u : User) (order_id : String) (message : List Char)
  | locationPing (u : User) (order_id : String) (lat lng acc : Option Rat)

/-- State transition of one request. -/
def step (s : St) : Op → St
  | .placeOrder u d la ln ac c oid => (order_place s u d la ln ac c oid).1
  | .submitQuote u oid p e => (transport_quote s u oid p e).1
  | .acceptQuote u qid oid => (quote_accept s u qid oid).1
  | .declineQuote u qid oid => (quote_decline s u qid oid).1
  | .startTrip u oid => (transport_start_trip s u oid).1
  | .arrive u oid => (transport_arrive s u oid).1
  | .deliver u oid => (transport_deliver s u oid).1
  | .sendMessage u oid m => (api_order_send_message s u oid m).1
  | .locationPing u oid la ln ac => (api_order_location s u oid la ln ac).1

/-- The caller holds the order's accepted quote and that quote is
ACCEPTED: the authorization condition of the three delivery milestones. -/
def isAcceptedTransporter (s : St) (o : Order) (uid : Nat) : Prop :=
  ∃ q ∈ s.quotes, o.accepted_quote_id = some q.id ∧
    q.transporter_user_id = uid ∧ q.status = QuoteStatus.ACCEPTED

instance (s : St) (o : Order) (uid : Nat) : Decidable (isAcceptedTransporter s o uid) := by
  unfold isAcceptedTransporter; infer_instance

/-- Status of the order carrying a given id, when it exists. -/
def orderStatus? (s : St) (order_id : String) : Option OrderStatus :=
  (orderById? s order_id).map (fun o => o.status)

/-- Claim C3.  On an order in the status a milestone expects, a caller
who does not hold the order's accepted quote in status ACCEPTED is turned
away with NotAuthorized and the state is untouched (a caller without the
transporter role is turned away the same way by the role gate). -/
theorem milestone_unauthorized_no_change (s : St) (u : User) (order_id : String) (o : Order)
    (hfind : orderById? s order_id = some o)
    (hauth : ¬ isAcceptedTransporter s o u.id) :
    (o.status = OrderStatus.QUOTE_ACCEPTED →
      transport_start_trip s u order_id = (s, .err .notAuthorized)) ∧
    (o.status = OrderStatus.IN_TRANSIT →
      transport_arrive s u order_id = (s, .err .notAuthorized)) ∧
    (o.status = OrderStatus.ARRIVED →
      transport_deliver s u order_id = (s, .err .notAuthorized)) := by
  refine ⟨?_, ?_, ?_⟩ <;> intro hst <;>
    [unfold transport_start_trip; unfold transport_arrive; unfold transport_deliver] <;>
  · by_cases hrole : u.role = "transporter"
    · simp only [hrole, ne_eq, not_true_eq_false, if_false, hfind, hst]
      cases haq : o.accepted_quote_id with
      | none => simp
      | some aqid =>
        simp only []
        split
        · rfl
        · rename_i q hq
          unfold quoteByIdAndTransporter? at hq
          have hmem := List.mem_of_find?_eq_some hq
          have hp := List.find?_some hq
          simp only [Bool.and_eq_true, decide_eq_true_eq] at hp
          have hna : ¬ q.status = QuoteStatus.ACCEPTED := fun hacc =>
            hauth ⟨q, hmem, by rw [haq, hp.1], hp.2, hacc⟩
          simp [hna]
    · simp [hrole]

/-- Witness for claim C3: the losing transporter's start-trip attempt on
the concrete state stQA is turned away with no state change. -/
theorem milestone_unauthorized_no_change_witness :
    transport_start_trip stQA uTrans2 "ORD-1" = (stQA, .err .notAuthorized) :=
  (milestone_unauthorized_no_change stQA uTrans2 "ORD-1"
    ⟨"ORD-1", 1, "Jos", "Abuja", .QUOTE_ACCEPTED, some 1⟩
    (by decide) (by decide)).1 rfl

/-- Claim C4.  Submitting a quote as a transporter: a non-positive price
is rejected as InvalidInput with no quote created; an order outside
NEEDS_QUOTES is rejected as InvalidState with no quote created; otherwise
one SUBMITTED quote is inserted and exactly one notification is appended
for the order's buyer. -/
theorem transport_quote_contract (s : St) (u : User) (order_id : String)
    (price eta : Int) (hrole : u.role = "transporter") :
    (price ≤ 0 → transport_quote s u order_id price eta = (s, .err .invalidInput)) ∧
    (∀ o, orderById? s order_id = some o →
      o.status ≠ OrderStatus.NEEDS_QUOTES → 0 < price →
      transport_quote s u order_id price eta = (s, .err .invalidState)) ∧
    (∀ o, orderById? s order_id = some o →
      o.status = OrderStatus.NEEDS_QUOTES → 0 < price → o.buyer_user_id ≠ 0 →
      (transport_quote s u order_id price eta).2 = .ok ∧
      (transport_quote s u order_id price eta).1.quotes =
        s.quotes ++ [⟨s.next_quote_id, order_id, u.id, price, eta, .SUBMITTED⟩] ∧
      (transport_quote s u order_id price eta).1.notifications =
        s.notifications ++ [⟨s.next_notification_id, o.buyer_user_id, "QUOTE",
          "New transport quote received for order " ++ order_id ++ ".", "/orders"⟩]) := by
  refine ⟨?_, ?_, ?_⟩
  · intro hp
    unfold transport_quote
    simp [hrole, hp]
  · intro o hfind hst hp
    unfold transport_quote
    simp [hrole, not_le.mpr hp, hfind, hst]
  · intro o hfind hst hp hbuyer
    unfold transport_quote
    simp [hrole, not_le.mpr hp, hfind, hst, notifyUser, hbuyer]

/-- A state with a single open order waiting for quotes. -/
def stNQ : St :=
  { users := [uBuyer, uFarmer, uTrans1, uTrans2]
    products := [pYam]
    orders := [⟨"ORD-1", 1, "Jos", "Abuja", .NEEDS_QUOTES, none⟩]
    order_items := [⟨1, "ORD-1", 1, 3, 100⟩]
    quotes := []
    notifications := []
    order_locations := []
    order_messages := []
    next_quote_id := 1
    next_notification_id := 1
    next_location_id := 1
    next_message_id := 1
    next_item_id := 2 }

/-- Witness for claim C4 at the concrete state stNQ: a positive quote is
inserted and the buyer notified; a zero price is rejected. -/
theorem transport_quote_contract_witness :
    transport_quote stNQ uTrans1 "ORD-1" 0 24 = (stNQ, .err .invalidInput) ∧
    (transport_quote stNQ uTrans1 "ORD-1" 500 24).2 = .ok ∧
    (transport_quote stNQ uTrans1 "ORD-1" 500 24).1.quotes =
      [⟨1, "ORD-1", 3, 500, 24, .SUBMITTED⟩] := by
  have h := transport_quote_contract stNQ uTrans1 "ORD-1" 500 24 rfl
  have h0 := transport_quote_contract stNQ uTrans1 "ORD-1" 0 24 rfl
  refine ⟨h0.1 (by decide), ?_, ?_⟩
  · exact (h.2.2 ⟨"ORD-1", 1, "Jos", "Abuja", .NEEDS_QUOTES, none⟩
      (by decide) rfl (by decide) (by decide)).1
  · exact (h.2.2 ⟨"ORD-1", 1, "Jos", "Abuja", .NEEDS_QUOTES, none⟩
      (by decide) rfl (by decide) (by decide)).2.1

/-- In a list sorted by notification id, every element is bounded by the
last one. -/
lemma sorted_all_le_getLast :
    ∀ (l : List Notification), l.Sorted notifLe →
      ∀ m, l.getLast? = some m → ∀ x ∈ l, x.id ≤ m.id := by
  intro l
  induction l with
  | nil => simp
  | cons a t ih =>
    intro hs m hm x hx
    cases t with
    | nil =>
      simp only [List.getLast?_singleton, Option.some.injEq] at hm
      simp only [List.mem_singleton] at hx
      subst hm; subst hx; exact le_refl _
    | cons b t2 =>
      have hm2 : (b :: t2).getLast? = some m := by
        simpa [List.getLast?_cons_cons] using hm
      rcases List.mem_cons.mp hx with hxa | hxt
      · subst hxa
        have hb : notifLe x b := (List.sorted_cons.mp hs).1 b (by simp)
        have hbm : b.id ≤ m.id :=
          ih (List.sorted_cons.mp hs).2 m hm2 b (by simp)
        exact le_trans hb hbm
      · exact ih (List.sorted_cons.mp hs).2 m hm2 x hxt

/-- Claim C6.  The polling endpoint returns exactly the caller's rows
with id above the cursor, ascending, capped at 25, none at or below the
cursor, no row omitted while under the cap, and a high-water mark equal
to the largest returned id (the cursor itself when nothing is returned). -/
theorem api_notifications_contract (s : St) (u : User) (since : Int) :
    (∀ n ∈ (api_notifications s u since).items,
       n.user_id = u.id ∧ (n.id : Int) > since ∧ n ∈ s.notifications) ∧
    (api_notifications s u since).items.Sorted notifLe ∧
    (api_notifications s u since).items.length ≤ 25 ∧
    (∀ n ∈ s.notifications, n.user_id = u.id → (n.id : Int) > since →
      (api_notifications s u since).items.length < 25 →
      n ∈ (api_notifications s u since).items) ∧
    (∀ n ∈ (api_notifications s u since).items,
      (n.id : Int) ≤ (api_notifications s u since).latest_id) ∧
    ((api_notifications s u since).items = [] →
      (api_notifications s u since).latest_id = since) ∧
    (∀ n, (api_notifications s u since).items.getLast? = some n →
      (api_notifications s u since).latest_id = (n.id : Int)) := by
  have hitems : (api_notifications s u since).items =
      ((s.notifications.filter
        (fun n => n.user_id = u.id ∧ (n.id : Int) > since)).insertionSort notifLe).take 25 := rfl
  have hsorted : (api_notifications s u since).items.Sorted notifLe := by
    rw [hitems]
    exact (List.sorted_insertionSort notifLe _).sublist (List.take_sublist _ _)
  have hmemrows : ∀ n ∈ (api_notifications s u since).items,
      n ∈ s.notifications.filter (fun n => n.user_id = u.id ∧ (n.id : Int) > since) := by
    intro n hn
    rw [hitems] at hn
    exact (List.perm_insertionSort notifLe _).mem_iff.mp
      ((List.take_sublist _ _).mem hn)
  refine ⟨?_, hsorted, ?_, ?_, ?_, ?_, ?_⟩
  · intro n hn
    have h2 := List.mem_filter.mp (hmemrows n hn)
    have := h2.2
    simp only [decide_eq_true_eq] at this
    exact ⟨this.1, this.2, h2.1⟩
  · rw [hitems]
    simp [Nat.min_le_left]
  · intro n hn hu hid hlen
    rw [hitems] at hlen ⊢
    have hlt : ((s.notifications.filter
        (fun n => n.user_id = u.id ∧ (n.id : Int) > since)).insertionSort notifLe).length < 25 := by
      rw [List.length_take] at hlen
      omega
    rw [List.take_of_length_le (le_of_lt hlt)]
    refine (List.perm_insertionSort notifLe _).mem_iff.mpr ?_
    exact List.mem_filter.mpr ⟨hn, by simp [hu, hid]⟩
  · intro n hn
    cases hlast : (api_notifications s u since).items.getLast? with
    | none =>
      rcases List.getLast?_eq_none_iff.mp hlast with h
      rw [h] at hn; simp at hn
    | some m =>
      have hb := sorted_all_le_getLast _ hsorted m hlast n hn
      have hl : (api_notifications s u since).latest_id = (m.id : Int) := by
        show (match ((s.notifications.filter
          (fun n => n.user_id = u.id ∧ (n.id : Int) > since)).insertionSort notifLe).take
            25 |>.getLast? with
          | some n => (n.id : Int) | none => since) = (m.id : Int)
        rw [← hitems, hlast]
      rw [hl]
      exact_mod_cast hb
  · intro hempty
    show (match (api_notifications s u since).items.getLast? with
      | some n => (n.id : Int) | none => since) = since
    rw [hempty]
    rfl
  · intro n hlast
    show (match (api_notifications s u since).items.getLast? with
      | some n => (n.id : Int) | none => since) = (n.id : Int)
    rw [hlast]

/-- Witness for claim C6: polling the concrete state stPoll from cursor 1
returns exactly the caller's rows 2 and 5 in ascending order with
high-water mark 5. -/
def stPoll : St :=
  { stNQ with
    notifications :=
      [⟨1, 1, "NEW_ORDER", "m1", "/orders"⟩,
       ⟨2, 1, "QUOTE", "m2", "/orders"⟩,
       ⟨3, 3, "QUOTE_DECLINED", "m3", "/orders"⟩,
       ⟨5, 1, "CHAT", "m5", "/orders"⟩],
    next_notification_id := 6 }

/-- Witness for claim C6 at stPoll. -/
theorem api_notifications_contract_witness :
    (api_notifications stPoll uBuyer 1).items =
      [⟨2, 1, "QUOTE", "m2", "/orders"⟩, ⟨5, 1, "CHAT", "m5", "/orders"⟩] ∧
    (api_notifications stPoll uBuyer 1).latest_id = 5 ∧
    (⟨2, 1, "QUOTE", "m2", "/orders"⟩ : Notification) ∈ (api_notifications stPoll uBuyer 1).items := by
  have h := api_notifications_contract stPoll uBuyer 1
  refine ⟨by decide, by decide, ?_⟩
  exact h.2.2.2.1 ⟨2, 1, "QUOTE", "m2", "/orders"⟩ (by decide) (by decide) (by decide) (by decide)


/-- An order list update that only rewrites fields other than the id
commutes with lookup by id. -/
lemma find?_map_id_preserving (l : List Order) (oid : String) (f : Order → Order)
    (hid : ∀ o, (f o).id = o.id) :
    (l.map f).find? (fun o => o.id = oid) = (l.find? (fun o => o.id = oid)).map f := by
  rw [List.find?_map]
  have hp : ((fun o => decide (o.id = oid)) ∘ f) = (fun o => decide (o.id = oid)) := by
    funext o
    simp [Function.comp, hid]
  rw [hp]

/-- notify_user touches only the notifications table. -/
lemma notifyUser_orders (s : St) (uid : Nat) (k m li : String) :
    (notifyUser s uid k m li).orders = s.orders := by
  unfold notifyUser; split <;> rfl

/-- notify_user leaves the quotes table alone. -/
lemma notifyUser_quotes (s : St) (uid : Nat) (k m li : String) :
    (notifyUser s uid k m li).quotes = s.quotes := by
  unfold notifyUser; split <;> rfl

/-- The farmer fan-out leaves the orders table alone. -/
lemma notifyFarmers_orders (s : St) (oid k m li : String) :
    (notifyFarmers s oid k m li).orders = s.orders := by
  unfold notifyFarmers
  exact foldl_proj_const _ _ (fun acc x => notifyUser_orders acc x k m li) _ s

/-- The state with one order's status rewritten, as the milestone
handlers produce it. -/
def setOrderStatus (s : St) (oid : String) (st2 : OrderStatus) : St :=
  { s with orders := s.orders.map (fun o2 =>
      if o2.id = oid then { o2 with status := st2 } else o2) }


/-- notify_user leaves the quote counter alone. -/
lemma notifyUser_next_quote_id (s : St) (uid : Nat) (k m li : String) :
    (notifyUser s uid k m li).next_quote_id = s.next_quote_id := by
  unfold notifyUser; split <;> rfl

/-- The farmer fan-out leaves the quotes table alone. -/
lemma notifyFarmers_quotes (s : St) (oid k m li : String) :
    (notifyFarmers s oid k m li).quotes = s.quotes := by
  unfold notifyFarmers
  exact foldl_proj_const _ _ (fun acc x => notifyUser_quotes acc x k m li) _ s

/-- The farmer fan-out leaves the quote counter alone. -/
lemma notifyFarmers_next_quote_id (s : St) (oid k m li : String) :
    (notifyFarmers s oid k m li).next_quote_id = s.next_quote_id := by
  unfold notifyFarmers
  exact foldl_proj_const _ _ (fun acc x => notifyUser_next_quote_id acc x k m li) _ s


/-- The order_items rows the checkout loop of order_place appends: one
row per cart entry carrying an active product, snapshotting that
product's price, with consecutive ids from n. -/
def itemsFrom (s : St) (oid : String) : List (Nat × Int) → Nat → List OrderItem
  | [], _ => []
  | e :: rest, n =>
    match activeProductById? s e.1 with
    | some p => ⟨n, oid, e.1, e.2, p.price⟩ :: itemsFrom s oid rest (n + 1)
    | none => itemsFrom s oid rest n

/-- The checkout loop appends exactly itemsFrom and leaves the other
core tables alone. -/
lemma order_place_fold_spec (s : St) (oid : String) :
    ∀ (cart : List (Nat × Int)) (acc : St),
      (cart.foldl (fun (acc : St) (e : Nat × Int) =>
        match activeProductById? s e.1 with
        | some p =>
          { acc with
            order_items := acc.order_items ++ [⟨acc.next_item_id, oid, e.1, e.2, p.price⟩],
            next_item_id := acc.next_item_id + 1 }
        | none => acc) acc).order_items =
        acc.order_items ++ itemsFrom s oid cart acc.next_item_id ∧
      (cart.foldl (fun (acc : St) (e : Nat × Int) =>
        match activeProductById? s e.1 with
        | some p =>
          { acc with
            order_items := acc.order_items ++ [⟨acc.next_item_id, oid, e.1, e.2, p.price⟩],
            next_item_id := acc.next_item_id + 1 }
        | none => acc) acc).orders = acc.orders ∧
      (cart.foldl (fun (acc : St) (e : Nat × Int) =>
        match activeProductById? s e.1 with
        | some p =>
          { acc with
            order_items := acc.order_items ++ [⟨acc.next_item_id, oid, e.1, e.2, p.price⟩],
            next_item_id := acc.next_item_id + 1 }
        | none => acc) acc).quotes = acc.quotes ∧
      (cart.foldl (fun (acc : St) (e : Nat × Int) =>
        match activeProductById? s e.1 with
        | some p =>
          { acc with
            order_items := acc.order_items ++ [⟨acc.next_item_id, oid, e.1, e.2, p.price⟩],
            next_item_id := acc.next_item_id + 1 }
        | none => acc) acc).next_quote_id = acc.next_quote_id := by
  intro cart
  induction cart with
  | nil => intro acc; exact ⟨by simp [itemsFrom], rfl, rfl, rfl⟩
  | cons e rest ih =>
    intro acc
    rw [List.foldl_cons]
    cases hp : activeProductById? s e.1 with
    | none =>
      simp only [hp]
      refine ⟨?_, (ih acc).2.1, (ih acc).2.2.1, (ih acc).2.2.2⟩
      rw [(ih acc).1]
      simp [itemsFrom, hp]
    | some p =>
      simp only [hp]
      refine ⟨?_, ?_, ?_, ?_⟩
      · rw [(ih _).1]
        simp [itemsFrom, hp]
      · rw [(ih _).2.1]
      · rw [(ih _).2.2.1]
      · rw [(ih _).2.2.2]

/-- insertLocation changes only the locations table and its counter. -/
lemma insertLocation_core (s : St) (oid : String) (uid : Nat) (role : String)
    (la ln : Rat) (acc : Option Rat) :
    (insertLocation s oid uid role la ln acc).orders = s.orders ∧
    (insertLocation s oid uid role la ln acc).quotes = s.quotes ∧
    (insertLocation s oid uid role la ln acc).next_quote_id = s.next_quote_id ∧
    (insertLocation s oid uid role la ln acc).order_items = s.order_items ∧
    (insertLocation s oid uid role la ln acc).next_item_id = s.next_item_id ∧
    (insertLocation s oid uid role la ln acc).users = s.users :=
  ⟨rfl, rfl, rfl, rfl, rfl, rfl⟩

/-- maybeInsertLocation changes only the locations table and counter. -/
lemma maybeInsertLocation_core (s : St) (oid : String) (uid : Nat) (role : String)
    (la ln : Option Rat) (acc : Option Rat) :
    (maybeInsertLocation s oid uid role la ln acc).orders = s.orders ∧
    (maybeInsertLocation s oid uid role la ln acc).quotes = s.quotes ∧
    (maybeInsertLocation s oid uid role la ln acc).next_quote_id = s.next_quote_id ∧
    (maybeInsertLocation s oid uid role la ln acc).order_items = s.order_items ∧
    (maybeInsertLocation s oid uid role la ln acc).next_item_id = s.next_item_id ∧
    (maybeInsertLocation s oid uid role la ln acc).users = s.users := by
  unfold maybeInsertLocation
  split
  · exact insertLocation_core _ _ _ _ _ _ _
  · exact ⟨rfl, rfl, rfl, rfl, rfl, rfl⟩

/-- originLocation changes only the locations table and counter. -/
lemma originLocation_core (s : St) (oid : String) (fid : Nat) (f? : Option User) :
    (originLocation s oid fid f?).orders = s.orders ∧
    (originLocation s oid fid f?).quotes = s.quotes ∧
    (originLocation s oid fid f?).next_quote_id = s.next_quote_id ∧
    (originLocation s oid fid f?).order_items = s.order_items ∧
    (originLocation s oid fid f?).next_item_id = s.next_item_id ∧
    (originLocation s oid fid f?).users = s.users := by
  unfold originLocation
  split
  · exact maybeInsertLocation_core _ _ _ _ _ _ _
  · exact ⟨rfl, rfl, rfl, rfl, rfl, rfl⟩

/-- notify_user leaves the items table alone. -/
lemma notifyUser_order_items (s : St) (uid : Nat) (k m li : String) :
    (notifyUser s uid k m li).order_items = s.order_items := by
  unfold notifyUser; split <;> rfl

/-- Complete case analysis of quote acceptance: either nothing changed
and an error came back, or the order belongs to the buyer, the quote
belongs to the order and is not DECLINED, the quote becomes ACCEPTED,
every other non-DELIVERED quote of the order becomes DECLINED, and the
order moves to QUOTE_ACCEPTED pointing at the quote — whatever status
the order was in before. -/
lemma quote_accept_cases (s : St) (u : User) (quote_id : Nat) (order_id : String) :
    ((quote_accept s u quote_id order_id).1 = s ∧
      (quote_accept s u quote_id order_id).2 ≠ .ok) ∨
    ((quote_accept s u quote_id order_id).2 = .ok ∧
      ∃ o q, orderOfBuyer? s order_id u.id = some o ∧
        quoteOfOrder? s quote_id order_id = some q ∧ q.status ≠ .DECLINED ∧
        (quote_accept s u quote_id order_id).1.orders = s.orders.map (fun o2 =>
          if o2.id = order_id
          then { o2 with status := OrderStatus.QUOTE_ACCEPTED,
                         accepted_quote_id := some quote_id }
          else o2) ∧
        (quote_accept s u quote_id order_id).1.quotes =
          (s.quotes.map (fun q2 =>
            if q2.id = quote_id then { q2 with status := QuoteStatus.ACCEPTED } else q2)).map
            (fun q2 =>
              if q2.order_id = order_id ∧ q2.id ≠ quote_id ∧ q2.status ≠ QuoteStatus.DELIVERED
              then { q2 with status := QuoteStatus.DECLINED } else q2) ∧
        (quote_accept s u quote_id order_id).1.next_quote_id = s.next_quote_id) := by
  unfold quote_accept
  by_cases hrole : u.role ≠ "buyer"
  · rw [if_pos hrole]
    left
    exact ⟨by trivial, by simp⟩
  · rw [if_neg hrole]
    cases hord : orderOfBuyer? s order_id u.id with
    | none =>
      simp only [hord]
      left
      exact ⟨by trivial, by simp⟩
    | some o =>
      simp only [hord]
      cases hq : quoteOfOrder? s quote_id order_id with
      | none =>
        simp only [hq]
        left
        exact ⟨by trivial, by simp⟩
      | some q =>
        simp only [hq]
        by_cases hqs : q.status = QuoteStatus.DECLINED
        · rw [if_pos hqs]
          left
          exact ⟨by trivial, by simp⟩
        · rw [if_neg hqs]
          right
          have hfo : ∀ (l : List Quote) (s0 : St),
              (l.foldl (fun acc q2 => notifyUser acc q2.transporter_user_id "QUOTE_DECLINED"
                ("Another quote was accepted for order " ++ order_id ++ ".") "/orders")
                s0).orders = s0.orders :=
            fun l s0 => foldl_proj_const _ _
              (fun acc x => notifyUser_orders acc x.transporter_user_id _ _ _) l s0
          have hfq : ∀ (l : List Quote) (s0 : St),
              (l.foldl (fun acc q2 => notifyUser acc q2.transporter_user_id "QUOTE_DECLINED"
                ("Another quote was accepted for order " ++ order_id ++ ".") "/orders")
                s0).quotes = s0.quotes :=
            fun l s0 => foldl_proj_const _ _
              (fun acc x => notifyUser_quotes acc x.transporter_user_id _ _ _) l s0
          have hfn : ∀ (l : List Quote) (s0 : St),
              (l.foldl (fun acc q2 => notifyUser acc q2.transporter_user_id "QUOTE_DECLINED"
                ("Another quote was accepted for order " ++ order_id ++ ".") "/orders")
                s0).next_quote_id = s0.next_quote_id :=
            fun l s0 => foldl_proj_const _ _
              (fun acc x => notifyUser_next_quote_id acc x.transporter_user_id _ _ _) l s0
          refine ⟨by trivial, o, q, rfl, rfl, hqs, ?_, ?_, ?_⟩
          · rw [hfo, notifyUser_orders]
          · rw [hfq, notifyUser_quotes]
          · rw [hfn, notifyUser_next_quote_id]

/-- Complete case analysis of quote decline: either nothing changed and
an error came back, or the call succeeded, orders are untouched, and the
only change to quotes is that a SUBMITTED quote matching the id and the
order becomes DECLINED — a quote in any other status is left as it is,
with the call still succeeding. -/
lemma quote_decline_cases (s : St) (u : User) (quote_id : Nat) (order_id : String) :
    ((quote_decline s u quote_id order_id).1 = s ∧
      (quote_decline s u quote_id order_id).2 ≠ .ok ∧
      (u.role = "buyer" → orderOfBuyer? s order_id u.id = none)) ∨
    ((quote_decline s u quote_id order_id).2 = .ok ∧
      ∃ o, orderOfBuyer? s order_id u.id = some o ∧
      (quote_decline s u quote_id order_id).1.orders = s.orders ∧
      (quote_decline s u quote_id order_id).1.quotes = s.quotes.map (fun q2 =>
        if q2.id = quote_id ∧ q2.order_id = order_id ∧ q2.status = QuoteStatus.SUBMITTED
        then { q2 with status := QuoteStatus.DECLINED } else q2) ∧
      (quote_decline s u quote_id order_id).1.next_quote_id = s.next_quote_id) := by
  unfold quote_decline
  by_cases hrole : u.role ≠ "buyer"
  · rw [if_pos hrole]
    left
    exact ⟨by trivial, by simp, fun hb => absurd hb hrole⟩
  · rw [if_neg hrole]
    cases hord : orderOfBuyer? s order_id u.id with
    | none =>
      simp only [hord]
      left
      exact ⟨by trivial, by simp, by simp⟩
    | some o =>
      simp only [hord]
      right
      refine ⟨by trivial, o, rfl, ?_, ?_, ?_⟩
      · split <;> simp [notifyUser_orders]
      · split <;> simp [notifyUser_quotes]
      · split <;> simp [notifyUser_next_quote_id]

/-- Complete case analysis of quote submission: either nothing changed
and an error came back, or the order was open for quotes, the price
positive, and exactly one SUBMITTED quote was appended. -/
lemma transport_quote_cases (s : St) (u : User) (order_id : String) (price eta : Int) :
    ((transport_quote s u order_id price eta).1 = s ∧
      (transport_quote s u order_id price eta).2 ≠ .ok) ∨
    ((transport_quote s u order_id price eta).2 = .ok ∧
      ∃ o, orderById? s order_id = some o ∧ o.status = .NEEDS_QUOTES ∧ 0 < price ∧
      (transport_quote s u order_id price eta).1.orders = s.orders ∧
      (transport_quote s u order_id price eta).1.quotes =
        s.quotes ++ [⟨s.next_quote_id, order_id, u.id, price, eta, .SUBMITTED⟩] ∧
      (transport_quote s u order_id price eta).1.next_quote_id = s.next_quote_id + 1) := by
  unfold transport_quote
  by_cases hrole : u.role ≠ "transporter"
  · rw [if_pos hrole]
    left
    exact ⟨by trivial, by simp⟩
  · rw [if_neg hrole]
    by_cases hp : price ≤ 0
    · rw [if_pos hp]
      left
      exact ⟨by trivial, by simp⟩
    · rw [if_neg hp]
      cases hfind : orderById? s order_id with
      | none =>
        simp only [hfind]
        left
        exact ⟨by trivial, by simp⟩
      | some o =>
        simp only [hfind]
        by_cases hst : o.status ≠ OrderStatus.NEEDS_QUOTES
        · rw [if_pos hst]
          left
          exact ⟨by trivial, by simp⟩
        · rw [if_neg hst]
          push_neg at hst
          right
          refine ⟨by trivial, o, rfl, hst, by omega, ?_, ?_, ?_⟩
          · rw [notifyUser_orders]
          · rw [notifyUser_quotes]
          · rw [notifyUser_next_quote_id]


/-- Complete case analysis of order placement: either nothing changed,
an error came back and (for a buyer) the cart was empty, mapped to no
active product, spanned several farmers, or the random id collided; or
the call succeeded, appending one NEEDS_QUOTES order and exactly the
order_items of the cart entries with active products. -/
lemma order_place_cases (s : St) (u : User) (dest : String)
    (dlat dlng dacc : Option Rat) (cart : List (Nat × Int)) (oid : String) :
    ((order_place s u dest dlat dlng dacc cart oid).1 = s ∧
      (order_place s u dest dlat dlng dacc cart oid).2 ≠ .ok ∧
      (u.role = "buyer" →
        cart = [] ∨ cart.all (fun e => (activeProductById? s e.1).isNone) = true ∨
        (cart.filterMap (fun e =>
          (activeProductById? s e.1).map (fun p => p.farmer_user_id))).dedup.length ≠ 1 ∨
        s.orders.any (fun o => o.id = oid) = true)) ∨
    ((order_place s u dest dlat dlng dacc cart oid).2 = .ok ∧
      cart ≠ [] ∧
      cart.all (fun e => (activeProductById? s e.1).isNone) = false ∧
      (∃ fid, (cart.filterMap (fun e =>
          (activeProductById? s e.1).map (fun p => p.farmer_user_id))).dedup = [fid]) ∧
      s.orders.any (fun o => o.id = oid) = false ∧
      (∃ org, (order_place s u dest dlat dlng dacc cart oid).1.orders =
        s.orders ++ [⟨oid, u.id, org, dest, .NEEDS_QUOTES, none⟩]) ∧
      (order_place s u dest dlat dlng dacc cart oid).1.quotes = s.quotes ∧
      (order_place s u dest dlat dlng dacc cart oid).1.next_quote_id = s.next_quote_id ∧
      (order_place s u dest dlat dlng dacc cart oid).1.order_items =
        s.order_items ++ itemsFrom s oid cart s.next_item_id) := by
  have hnu : ∀ (l : List Nat) (s0 : St),
      (l.foldl (fun acc fid => notifyUser acc fid "NEW_ORDER"
        ("New order " ++ oid ++ " includes your products.") "/orders") s0).orders = s0.orders ∧
      (l.foldl (fun acc fid => notifyUser acc fid "NEW_ORDER"
        ("New order " ++ oid ++ " includes your products.") "/orders") s0).quotes = s0.quotes ∧
      (l.foldl (fun acc fid => notifyUser acc fid "NEW_ORDER"
        ("New order " ++ oid ++ " includes your products.") "/orders") s0).next_quote_id =
        s0.next_quote_id ∧
      (l.foldl (fun acc fid => notifyUser acc fid "NEW_ORDER"
        ("New order " ++ oid ++ " includes your products.") "/orders") s0).order_items =
        s0.order_items :=
    fun l s0 =>
      ⟨foldl_proj_const _ _ (fun acc x => notifyUser_orders acc x _ _ _) l s0,
       foldl_proj_const _ _ (fun acc x => notifyUser_quotes acc x _ _ _) l s0,
       foldl_proj_const _ _ (fun acc x => notifyUser_next_quote_id acc x _ _ _) l s0,
       foldl_proj_const _ _ (fun acc x => notifyUser_order_items acc x _ _ _) l s0⟩
  have htu : ∀ (l : List User) (s0 : St),
      (l.foldl (fun acc tr => notifyUser acc tr.id "NEW_ORDER"
        ("New order " ++ oid ++ " needs transport quotes.") "/orders") s0).orders = s0.orders ∧
      (l.foldl (fun acc tr => notifyUser acc tr.id "NEW_ORDER"
        ("New order " ++ oid ++ " needs transport quotes.") "/orders") s0).quotes = s0.quotes ∧
      (l.foldl (fun acc tr => notifyUser acc tr.id "NEW_ORDER"
        ("New order " ++ oid ++ " needs transport quotes.") "/orders") s0).next_quote_id =
        s0.next_quote_id ∧
      (l.foldl (fun acc tr => notifyUser acc tr.id "NEW_ORDER"
        ("New order " ++ oid ++ " needs transport quotes.") "/orders") s0).order_items =
        s0.order_items :=
    fun l s0 =>
      ⟨foldl_proj_const _ _ (fun acc x => notifyUser_orders acc x.id _ _ _) l s0,
       foldl_proj_const _ _ (fun acc x => notifyUser_quotes acc x.id _ _ _) l s0,
       foldl_proj_const _ _ (fun acc x => notifyUser_next_quote_id acc x.id _ _ _) l s0,
       foldl_proj_const _ _ (fun acc x => notifyUser_order_items acc x.id _ _ _) l s0⟩
  unfold order_place
  by_cases hrole : u.role ≠ "buyer"
  · rw [if_pos hrole]
    left
    exact ⟨by trivial, by simp, fun hb => absurd hb hrole⟩
  · rw [if_neg hrole]
    by_cases hcart : cart = []
    · rw [if_pos hcart]
      left
      exact ⟨by trivial, by simp, fun _ => Or.inl hcart⟩
    · rw [if_neg hcart]
      by_cases hall : cart.all (fun e => (activeProductById? s e.1).isNone) = true
      · rw [if_pos hall]
        left
        exact ⟨by trivial, by simp, fun _ => Or.inr (Or.inl hall)⟩
      · rw [if_neg hall]
        cases hfi : (cart.filterMap (fun e =>
            (activeProductById? s e.1).map (fun p => p.farmer_user_id))).dedup with
        | nil =>
          simp only [hfi]
          left
          refine ⟨by trivial, by simp, fun _ => Or.inr (Or.inr (Or.inl ?_))⟩
          simp
        | cons f rest =>
          cases rest with
          | cons g t =>
            simp only [hfi]
            left
            refine ⟨by trivial, by simp, fun _ => Or.inr (Or.inr (Or.inl ?_))⟩
            simp
          | nil =>
            simp only [hfi]
            by_cases hany : s.orders.any (fun o => o.id = oid) = true
            · rw [if_pos hany]
              left
              exact ⟨by trivial, by simp, fun _ => Or.inr (Or.inr (Or.inr hany))⟩
            · rw [if_neg hany]
              right
              refine ⟨by trivial, hcart, by simpa using hall, ⟨f, rfl⟩,
                by simpa using hany, ?_, ?_, ?_, ?_⟩
              · refine ⟨(match s.users.find? (fun us => us.id = f) with
                  | some fa => orElseStr fa.hub (orElseStr fa.name "Farmer pickup")
                  | none => "Farmer pickup"), ?_⟩
                rw [(hnu _ _).1, (htu _ _).1, (order_place_fold_spec s oid cart _).2.1,
                  (maybeInsertLocation_core _ _ _ _ _ _ _).1,
                  (originLocation_core _ _ _ _).1]
              · rw [(hnu _ _).2.1, (htu _ _).2.1, (order_place_fold_spec s oid cart _).2.2.1,
                  (maybeInsertLocation_core _ _ _ _ _ _ _).2.1,
                  (originLocation_core _ _ _ _).2.1]
              · rw [(hnu _ _).2.2.1, (htu _ _).2.2.1,
                  (order_place_fold_spec s oid cart _).2.2.2,
                  (maybeInsertLocation_core _ _ _ _ _ _ _).2.2.1,
                  (originLocation_core _ _ _ _).2.2.1]
              · rw [(hnu _ _).2.2.2, (htu _ _).2.2.2,
                  (order_place_fold_spec s oid cart _).1,
                  (maybeInsertLocation_core _ _ _ _ _ _ _).2.2.2.1,
                  (originLocation_core _ _ _ _).2.2.2.1,
                  (maybeInsertLocation_core _ _ _ _ _ _ _).2.2.2.2.1,
                  (originLocation_core _ _ _ _).2.2.2.2.1]


/-- The location endpoint never touches orders, quotes or the quote
counter. -/
lemma api_order_location_core (s : St) (u : User) (order_id : String)
    (la ln acc : Option Rat) :
    (api_order_location s u order_id la ln acc).1.orders = s.orders ∧
    (api_order_location s u order_id la ln acc).1.quotes = s.quotes ∧
    (api_order_location s u order_id la ln acc).1.next_quote_id = s.next_quote_id := by
  unfold api_order_location
  repeat' split
  all_goals exact ⟨rfl, rfl, rfl⟩

/-- The chat-send endpoint never touches orders, quotes or the quote
counter. -/
lemma api_order_send_message_core (s : St) (u : User) (order_id : String) (m : List Char) :
    (api_order_send_message s u order_id m).1.orders = s.orders ∧
    (api_order_send_message s u order_id m).1.quotes = s.quotes ∧
    (api_order_send_message s u order_id m).1.next_quote_id = s.next_quote_id := by
  have hfo : ∀ (l : List Nat) (s0 : St),
      (l.foldl (fun acc uid =>
        if uid = u.id then acc
        else notifyUser acc uid "CHAT" ("New message on order " ++ order_id ++ ".")
          ("/chat/" ++ order_id)) s0).orders = s0.orders ∧
      (l.foldl (fun acc uid =>
        if uid = u.id then acc
        else notifyUser acc uid "CHAT" ("New message on order " ++ order_id ++ ".")
          ("/chat/" ++ order_id)) s0).quotes = s0.quotes ∧
      (l.foldl (fun acc uid =>
        if uid = u.id then acc
        else notifyUser acc uid "CHAT" ("New message on order " ++ order_id ++ ".")
          ("/chat/" ++ order_id)) s0).next_quote_id = s0.next_quote_id :=
    fun l s0 =>
      ⟨foldl_proj_const _ _ (fun acc x => by
          split
          · rfl
          · exact notifyUser_orders acc x _ _ _) l s0,
       foldl_proj_const _ _ (fun acc x => by
          split
          · rfl
          · exact notifyUser_quotes acc x _ _ _) l s0,
       foldl_proj_const _ _ (fun acc x => by
          split
          · rfl
          · exact notifyUser_next_quote_id acc x _ _ _) l s0⟩
  by_cases hC1 : order_participant_ids s order_id = ∅ ∨ u.id ∉ order_participant_ids s order_id
  · unfold api_order_send_message
    rw [if_pos hC1]
    exact ⟨rfl, rfl, rfl⟩
  · cases hat : accepted_transporter_id s order_id with
    | none =>
      unfold api_order_send_message
      rw [if_neg hC1, hat]
      exact ⟨rfl, rfl, rfl⟩
    | some t =>
      by_cases ht : t = 0
      · unfold api_order_send_message
        rw [if_neg hC1, hat]
        simp [ht]
      · by_cases hm : pyStrip m = []
        · unfold api_order_send_message
          rw [if_neg hC1, hat]
          simp [ht, hm]
        · unfold api_order_send_message
          rw [if_neg hC1, hat]
          simp only [ht, hm, if_false, ite_false]
          exact ⟨(hfo _ _).1, (hfo _ _).2.1, (hfo _ _).2.2⟩

/-- Claim C1 as the specification states it for quote acceptance:
accepting on an order that is not in NEEDS_QUOTES would fail and leave
the state unchanged. -/
def ClaimC1_acceptGuard : Prop :=
  ∀ (s : St) (u : User) (quote_id : Nat) (order_id : String) (o : Order),
    orderById? s order_id = some o →
    o.status ≠ OrderStatus.NEEDS_QUOTES →
    (quote_accept s u quote_id order_id).2 ≠ Res.ok ∧
    (quote_accept s u quote_id order_id).1 = s

/-- A state whose order is already IN_TRANSIT while a second SUBMITTED
quote is still on file. -/
def stIT : St :=
  { stQA with
    orders := [⟨"ORD-1", 1, "Jos", "Abuja", .IN_TRANSIT, some 1⟩],
    quotes := [⟨1, "ORD-1", 3, 500, 24, .ACCEPTED⟩, ⟨2, "ORD-1", 4, 600, 12, .SUBMITTED⟩] }

/-- Counterexample for claim C1: on stIT (order IN_TRANSIT) the buyer
accepts the still-SUBMITTED quote 2 and the call succeeds, moving the
order back to QUOTE_ACCEPTED instead of failing with InvalidState. -/
theorem quote_accept_guard_counterexample : ¬ ClaimC1_acceptGuard := by
  intro h
  have hinst := h stIT uBuyer 2 "ORD-1" ⟨"ORD-1", 1, "Jos", "Abuja", .IN_TRANSIT, some 1⟩
    (by decide) (by decide)
  exact hinst.1 (by decide)


/-- Complete case analysis of starting the trip: either nothing changed
and an error came back, or the order was in QUOTE_ACCEPTED with the
caller holding its ACCEPTED quote, and exactly the order's status moved
to IN_TRANSIT. -/
lemma transport_start_trip_cases (s : St) (u : User) (order_id : String) :
    ((transport_start_trip s u order_id).1 = s ∧
      (transport_start_trip s u order_id).2 ≠ .ok) ∨
    ((transport_start_trip s u order_id).2 = .ok ∧
      ∃ o aqid q, orderById? s order_id = some o ∧ o.status = .QUOTE_ACCEPTED ∧
        o.accepted_quote_id = some aqid ∧
        quoteByIdAndTransporter? s aqid u.id = some q ∧ q.status = .ACCEPTED ∧
        (transport_start_trip s u order_id).1.orders = s.orders.map (fun o2 =>
          if o2.id = order_id then { o2 with status := OrderStatus.IN_TRANSIT } else o2) ∧
        (transport_start_trip s u order_id).1.quotes = s.quotes ∧
        (transport_start_trip s u order_id).1.next_quote_id = s.next_quote_id) := by
  unfold transport_start_trip
  by_cases hrole : u.role ≠ "transporter"
  · rw [if_pos hrole]
    left
    exact ⟨by trivial, by simp⟩
  · rw [if_neg hrole]
    cases hfind : orderById? s order_id with
    | none =>
      simp only [hfind]
      left
      exact ⟨by trivial, by simp⟩
    | some o =>
      simp only [hfind]
      by_cases hst : o.status ≠ OrderStatus.QUOTE_ACCEPTED
      · rw [if_pos hst]
        left
        exact ⟨by trivial, by simp⟩
      · rw [if_neg hst]
        push_neg at hst
        cases haq : o.accepted_quote_id with
        | none =>
          simp only [haq]
          left
          exact ⟨by trivial, by simp⟩
        | some aqid =>
          simp only [haq]
          cases hq : quoteByIdAndTransporter? s aqid u.id with
          | none =>
            simp only [hq]
            left
            exact ⟨by trivial, by simp⟩
          | some q =>
            simp only [hq]
            by_cases hqs : q.status ≠ QuoteStatus.ACCEPTED
            · rw [if_pos hqs]
              left
              exact ⟨by trivial, by simp⟩
            · rw [if_neg hqs]
              push_neg at hqs
              right
              refine ⟨by trivial, o, aqid, q, rfl, hst, haq, hq, hqs, ?_, ?_, ?_⟩
              · rw [notifyFarmers_orders, notifyUser_orders]
              · rw [notifyFarmers_quotes, notifyUser_quotes]
              · rw [notifyFarmers_next_quote_id, notifyUser_next_quote_id]

/-- Complete case analysis of marking arrival: either nothing changed
and an error came back, or the order was IN_TRANSIT with the caller
holding its ACCEPTED quote, and exactly the order's status moved to
ARRIVED. -/
lemma transport_arrive_cases (s : St) (u : User) (order_id : String) :
    ((transport_arrive s u order_id).1 = s ∧
      (transport_arrive s u order_id).2 ≠ .ok) ∨
    ((transport_arrive s u order_id).2 = .ok ∧
      ∃ o aqid q, orderById? s order_id = some o ∧ o.status = .IN_TRANSIT ∧
        o.accepted_quote_id = some aqid ∧
        quoteByIdAndTransporter? s aqid u.id = some q ∧ q.status = .ACCEPTED ∧
        (transport_arrive s u order_id).1.orders = s.orders.map (fun o2 =>
          if o2.id = order_id then { o2 with status := OrderStatus.ARRIVED } else o2) ∧
        (transport_arrive s u order_id).1.quotes = s.quotes ∧
        (transport_arrive s u order_id).1.next_quote_id = s.next_quote_id) := by
  unfold transport_arrive
  by_cases hrole : u.role ≠ "transporter"
  · rw [if_pos hrole]
    left
    exact ⟨by trivial, by simp⟩
  · rw [if_neg hrole]
    cases hfind : orderById? s order_id with
    | none =>
      simp only [hfind]
      left
      exact ⟨by trivial, by simp⟩
    | some o =>
      simp only [hfind]
      by_cases hst : o.status ≠ OrderStatus.IN_TRANSIT
      · rw [if_pos hst]
        left
        exact ⟨by trivial, by simp⟩
      · rw [if_neg hst]
        push_neg at hst
        cases haq : o.accepted_quote_id with
        | none =>
          simp only [haq]
          left
          exact ⟨by trivial, by simp⟩
        | some aqid =>
          simp only [haq]
          cases hq : quoteByIdAndTransporter? s aqid u.id with
          | none =>
            simp only [hq]
            left
            exact ⟨by trivial, by simp⟩
          | some q =>
            simp only [hq]
            by_cases hqs : q.status ≠ QuoteStatus.ACCEPTED
            · rw [if_pos hqs]
              left
              exact ⟨by trivial, by simp⟩
            · rw [if_neg hqs]
              push_neg at hqs
              right
              refine ⟨by trivial, o, aqid, q, rfl, hst, haq, hq, hqs, ?_, ?_, ?_⟩
              · rw [notifyFarmers_orders, notifyUser_orders]
              · rw [notifyFarmers_quotes, notifyUser_quotes]
              · rw [notifyFarmers_next_quote_id, notifyUser_next_quote_id]


/-- Complete case analysis of delivery: either nothing changed and an
error came back, or the order was ARRIVED with the caller holding its
ACCEPTED quote, the order's status moved to DELIVERED and the accepted
quote's status moved to DELIVERED. -/
lemma transport_deliver_cases (s : St) (u : User) (order_id : String) :
    ((transport_deliver s u order_id).1 = s ∧
      (transport_deliver s u order_id).2 ≠ .ok) ∨
    ((transport_deliver s u order_id).2 = .ok ∧
      ∃ o aqid q, orderById? s order_id = some o ∧ o.status = .ARRIVED ∧
        o.accepted_quote_id = some aqid ∧
        quoteByIdAndTransporter? s aqid u.id = some q ∧ q.status = .ACCEPTED ∧
        (transport_deliver s u order_id).1.orders = s.orders.map (fun o2 =>
          if o2.id = order_id then { o2 with status := OrderStatus.DELIVERED } else o2) ∧
        (transport_deliver s u order_id).1.quotes = s.quotes.map (fun q2 =>
          if q2.id = q.id then { q2 with status := QuoteStatus.DELIVERED } else q2) ∧
        (transport_deliver s u order_id).1.next_quote_id = s.next_quote_id) := by
  unfold transport_deliver
  by_cases hrole : u.role ≠ "transporter"
  · rw [if_pos hrole]
    left
    exact ⟨by trivial, by simp⟩
  · rw [if_neg hrole]
    cases hfind : orderById? s order_id with
    | none =>
      simp only [hfind]
      left
      exact ⟨by trivial, by simp⟩
    | some o =>
      simp only [hfind]
      by_cases hst : o.status ≠ OrderStatus.ARRIVED
      · rw [if_pos hst]
        left
        exact ⟨by trivial, by simp⟩
      · rw [if_neg hst]
        push_neg at hst
        cases haq : o.accepted_quote_id with
        | none =>
          simp only [haq]
          left
          exact ⟨by trivial, by simp⟩
        | some aqid =>
          simp only [haq]
          cases hq : quoteByIdAndTransporter? s aqid u.id with
          | none =>
            simp only [hq]
            left
            exact ⟨by trivial, by simp⟩
          | some q =>
            simp only [hq]
            by_cases hqs : q.status ≠ QuoteStatus.ACCEPTED
            · rw [if_pos hqs]
              left
              exact ⟨by trivial, by simp⟩
            · rw [if_neg hqs]
              push_neg at hqs
              right
              refine ⟨by trivial, o, aqid, q, rfl, hst, haq, hq, hqs, ?_, ?_, ?_⟩
              · rw [notifyFarmers_orders, notifyUser_orders]
              · rw [notifyFarmers_quotes, notifyUser_quotes]
              · rw [notifyFarmers_next_quote_id, notifyUser_next_quote_id]



/-- Claim C1 (amended).  The three delivery milestones move an order's
status exactly one step forward on success (QUOTE_ACCEPTED to
IN_TRANSIT, IN_TRANSIT to ARRIVED, ARRIVED to DELIVERED), leave the
state untouched on any failure, and fail with InvalidState when the
order exists but is not in the expected status; quote acceptance, by
contrast, checks no order status: on success it sets the order to
QUOTE_ACCEPTED whatever the previous status was, and on failure it
leaves the state untouched. -/
theorem lifecycle_transition_contract (s : St) (u : User) (order_id : String)
    (quote_id : Nat) :
    ((transport_start_trip s u order_id).2 = .ok →
      orderStatus? s order_id = some .QUOTE_ACCEPTED ∧
      orderStatus? (transport_start_trip s u order_id).1 order_id = some .IN_TRANSIT) ∧
    ((transport_start_trip s u order_id).2 ≠ .ok →
      (transport_start_trip s u order_id).1 = s) ∧
    (∀ o, orderById? s order_id = some o → u.role = "transporter" →
      o.status ≠ .QUOTE_ACCEPTED →
      transport_start_trip s u order_id = (s, .err .invalidState)) ∧
    ((transport_arrive s u order_id).2 = .ok →
      orderStatus? s order_id = some .IN_TRANSIT ∧
      orderStatus? (transport_arrive s u order_id).1 order_id = some .ARRIVED) ∧
    ((transport_arrive s u order_id).2 ≠ .ok →
      (transport_arrive s u order_id).1 = s) ∧
    (∀ o, orderById? s order_id = some o → u.role = "transporter" →
      o.status ≠ .IN_TRANSIT →
      transport_arrive s u order_id = (s, .err .invalidState)) ∧
    ((transport_deliver s u order_id).2 = .ok →
      orderStatus? s order_id = some .ARRIVED ∧
      orderStatus? (transport_deliver s u order_id).1 order_id = some .DELIVERED) ∧
    ((transport_deliver s u order_id).2 ≠ .ok →
      (transport_deliver s u order_id).1 = s) ∧
    (∀ o, orderById? s order_id = some o → u.role = "transporter" →
      o.status ≠ .ARRIVED →
      transport_deliver s u order_id = (s, .err .invalidState)) ∧
    ((quote_accept s u quote_id order_id).2 = .ok →
      orderStatus? (quote_accept s u quote_id order_id).1 order_id =
        some .QUOTE_ACCEPTED) ∧
    ((quote_accept s u quote_id order_id).2 ≠ .ok →
      (quote_accept s u quote_id order_id).1 = s) := by
  have hidp : ∀ (st2 : OrderStatus) (o2 : Order),
      ((fun o3 => if o3.id = order_id then { o3 with status := st2 } else o3) o2).id =
        o2.id := by
    intro st2 o2
    dsimp only
    split <;> rfl
  refine ⟨?_, ?_, ?_, ?_, ?_, ?_, ?_, ?_, ?_, ?_, ?_⟩
  · intro hok
    rcases transport_start_trip_cases s u order_id with ⟨_, h2⟩ | ⟨_, o, aqid, q, hfind, hst, _, _, _, hord, _, _⟩
    · exact absurd hok h2
    · constructor
      · unfold orderStatus?
        rw [hfind]
        simp [hst]
      · unfold orderStatus? orderById?
        rw [hord, find?_map_id_preserving _ _ _ (hidp OrderStatus.IN_TRANSIT)]
        unfold orderById? at hfind
        rw [hfind]
        simp [(orderById?_some hfind).2]
  · intro hne
    rcases transport_start_trip_cases s u order_id with ⟨h1, _⟩ | ⟨h2, _⟩
    · exact h1
    · exact absurd h2 hne
  · intro o hfind hrole hst
    unfold transport_start_trip
    simp only [hrole, ne_eq, not_true_eq_false, if_false, hfind]
    rw [if_pos hst]
  · intro hok
    rcases transport_arrive_cases s u order_id with ⟨_, h2⟩ | ⟨_, o, aqid, q, hfind, hst, _, _, _, hord, _, _⟩
    · exact absurd hok h2
    · constructor
      · unfold orderStatus?
        rw [hfind]
        simp [hst]
      · unfold orderStatus? orderById?
        rw [hord, find?_map_id_preserving _ _ _ (hidp OrderStatus.ARRIVED)]
        unfold orderById? at hfind
        rw [hfind]
        simp [(orderById?_some hfind).2]
  · intro hne
    rcases transport_arrive_cases s u order_id with ⟨h1, _⟩ | ⟨h2, _⟩
    · exact h1
    · exact absurd h2 hne
  · intro o hfind hrole hst
    unfold transport_arrive
    simp only [hrole, ne_eq, not_true_eq_false, if_false, hfind]
    rw [if_pos hst]
  · intro hok
    rcases transport_deliver_cases s u order_id with ⟨_, h2⟩ | ⟨_, o, aqid, q, hfind, hst, _, _, _, hord, _, _⟩
    · exact absurd hok h2
    · constructor
      · unfold orderStatus?
        rw [hfind]
        simp [hst]
      · unfold orderStatus? orderById?
        rw [hord, find?_map_id_preserving _ _ _ (hidp OrderStatus.DELIVERED)]
        unfold orderById? at hfind
        rw [hfind]
        simp [(orderById?_some hfind).2]
  · intro hne
    rcases transport_deliver_cases s u order_id with ⟨h1, _⟩ | ⟨h2, _⟩
    · exact h1
    · exact absurd h2 hne
  · intro o hfind hrole hst
    unfold transport_deliver
    simp only [hrole, ne_eq, not_true_eq_false, if_false, hfind]
    rw [if_pos hst]
  · intro hok
    rcases quote_accept_cases s u quote_id order_id with ⟨_, h2⟩ | ⟨_, o, q, hord, hq, _, horders, _, _⟩
    · exact absurd hok h2
    · have hacc : ∀ o2 : Order,
          ((fun o3 => if o3.id = order_id
            then { o3 with status := OrderStatus.QUOTE_ACCEPTED,
                           accepted_quote_id := some quote_id }
            else o3) o2).id = o2.id := by
        intro o2
        dsimp only
        split <;> rfl
      unfold orderStatus? orderById?
      rw [horders, find?_map_id_preserving _ _ _ hacc]
      have hobo := orderOfBuyer?_some hord
      have hsome : ∃ o2, s.orders.find? (fun o3 => o3.id = order_id) = some o2 := by
        cases hfo : s.orders.find? (fun o3 => o3.id = order_id) with
        | some o2 => exact ⟨o2, rfl⟩
        | none =>
          rw [List.find?_eq_none] at hfo
          exact absurd (by simp [hobo.2.1]) (hfo o hobo.1)
      obtain ⟨o2, ho2⟩ := hsome
      rw [ho2]
      have hid2 : o2.id = order_id := by
        have := List.find?_some ho2
        simpa using this
      simp [hid2]
  · intro hne
    rcases quote_accept_cases s u quote_id order_id with ⟨h1, _⟩ | ⟨h2, _⟩
    · exact h1
    · exact absurd h2 hne

/-- Witness for the amended claim C1 at stQA: the assigned transporter's
start call moves the order to IN_TRANSIT, and an arrive call on the same
QUOTE_ACCEPTED order is InvalidState with no change. -/
theorem lifecycle_transition_contract_witness :
    orderStatus? (transport_start_trip stQA uTrans1 "ORD-1").1 "ORD-1" =
      some .IN_TRANSIT ∧
    transport_arrive stQA uTrans1 "ORD-1" = (stQA, .err .invalidState) := by
  have h := lifecycle_transition_contract stQA uTrans1 "ORD-1" 1
  refine ⟨(h.1 (by decide)).2, ?_⟩
  exact h.2.2.2.2.2.1 ⟨"ORD-1", 1, "Jos", "Abuja", .QUOTE_ACCEPTED, some 1⟩
    (by decide) rfl (by decide)


/-- Claim C5 as the specification states its failure mode: declining a
quote of the order that is not currently SUBMITTED would fail with
AlreadyResolved and change nothing. -/
def ClaimC5_declineResolved : Prop :=
  ∀ (s : St) (u : User) (quote_id : Nat) (order_id : String) (o : Order) (q : Quote),
    u.role = "buyer" →
    orderOfBuyer? s order_id u.id = some o →
    quoteOfOrder? s quote_id order_id = some q →
    q.status ≠ QuoteStatus.SUBMITTED →
    (quote_decline s u quote_id order_id).2 = Res.err Err.alreadyResolved ∧
    (quote_decline s u quote_id order_id).1 = s

/-- Counterexample for claim C5: on stQA the buyer declines the already
ACCEPTED quote 1 and the call reports plain success, not
AlreadyResolved (and it even notifies the transporter). -/
theorem quote_decline_counterexample : ¬ ClaimC5_declineResolved := by
  intro h
  have hinst := h stQA uBuyer 1 "ORD-1"
    ⟨"ORD-1", 1, "Jos", "Abuja", .QUOTE_ACCEPTED, some 1⟩
    ⟨1, "ORD-1", 3, 500, 24, .ACCEPTED⟩ rfl (by decide) (by decide) (by decide)
  exact absurd hinst.1 (by decide)

/-- Claim C5 (amended).  A buyer's decline call on their own order
always reports success: a SUBMITTED quote matching the id and the order
becomes DECLINED with the order untouched, while a quote in any other
status (or of another order) is simply left unchanged — there is no
AlreadyResolved failure. -/
theorem quote_decline_contract (s : St) (u : User) (quote_id : Nat) (order_id : String)
    (o : Order) (hrole : u.role = "buyer")
    (hord : orderOfBuyer? s order_id u.id = some o) :
    (quote_decline s u quote_id order_id).2 = .ok ∧
    (quote_decline s u quote_id order_id).1.orders = s.orders ∧
    (∀ q ∈ s.quotes, q.id = quote_id → q.order_id = order_id →
      q.status = QuoteStatus.SUBMITTED →
      { q with status := QuoteStatus.DECLINED } ∈
        (quote_decline s u quote_id order_id).1.quotes) ∧
    (∀ q ∈ s.quotes,
      ¬(q.id = quote_id ∧ q.order_id = order_id ∧ q.status = QuoteStatus.SUBMITTED) →
      q ∈ (quote_decline s u quote_id order_id).1.quotes) ∧
    ((∀ q ∈ s.quotes,
      ¬(q.id = quote_id ∧ q.order_id = order_id ∧ q.status = QuoteStatus.SUBMITTED)) →
      (quote_decline s u quote_id order_id).1.quotes = s.quotes) := by
  rcases quote_decline_cases s u quote_id order_id with ⟨_, _, h3⟩ | ⟨hok, o2, _, hords, hquotes, _⟩
  · rw [h3 hrole] at hord
    cases hord
  · refine ⟨hok, hords, ?_, ?_, ?_⟩
    · intro q hq h1 h2 h3
      rw [hquotes]
      have himg : (if q.id = quote_id ∧ q.order_id = order_id ∧
          q.status = QuoteStatus.SUBMITTED
          then { q with status := QuoteStatus.DECLINED } else q) =
          { q with status := QuoteStatus.DECLINED } := if_pos ⟨h1, h2, h3⟩
      rw [← himg]
      exact List.mem_map_of_mem _ hq
    · intro q hq hnp
      rw [hquotes]
      have himg : (if q.id = quote_id ∧ q.order_id = order_id ∧
          q.status = QuoteStatus.SUBMITTED
          then { q with status := QuoteStatus.DECLINED } else q) = q := if_neg hnp
      rw [← himg]
      exact List.mem_map_of_mem _ hq
    · intro hall
      rw [hquotes]
      have : ∀ q ∈ s.quotes, (if q.id = quote_id ∧ q.order_id = order_id ∧
          q.status = QuoteStatus.SUBMITTED
          then { q with status := QuoteStatus.DECLINED } else q) = id q :=
        fun q hq => if_neg (hall q hq)
      rw [List.map_congr_left this, List.map_id]

/-- Witness for the amended claim C5 at stQA: declining the ACCEPTED
quote succeeds and leaves every quote as it was. -/
theorem quote_decline_contract_witness :
    (quote_decline stQA uBuyer 1 "ORD-1").2 = .ok ∧
    (quote_decline stQA uBuyer 1 "ORD-1").1.quotes = stQA.quotes := by
  have h := quote_decline_contract stQA uBuyer 1 "ORD-1"
    ⟨"ORD-1", 1, "Jos", "Abuja", .QUOTE_ACCEPTED, some 1⟩ rfl (by decide)
  exact ⟨h.1, h.2.2.2.2 (by decide)⟩


/-- Each row the checkout loop creates snapshots an active product's
price, points back at a cart entry, and there is at most one row per
cart entry. -/
lemma itemsFrom_spec (s : St) (oid : String) :
    ∀ (cart : List (Nat × Int)) (n : Nat),
      (itemsFrom s oid cart n).length ≤ cart.length ∧
      ∀ oi ∈ itemsFrom s oid cart n,
        oi.order_id = oid ∧ (oi.product_id, oi.qty) ∈ cart ∧
        ∃ p, activeProductById? s oi.product_id = some p ∧ oi.unit_price = p.price := by
  intro cart
  induction cart with
  | nil => intro n; simp [itemsFrom]
  | cons e rest ih =>
    intro n
    cases hp : activeProductById? s e.1 with
    | none =>
      rw [show itemsFrom s oid (e :: rest) n = itemsFrom s oid rest n by
        conv_lhs => rw [itemsFrom]
        rw [hp]]
      constructor
      · exact le_trans (ih n).1 (by simp)
      · intro oi hoi
        obtain ⟨h1, h2, h3⟩ := (ih n).2 oi hoi
        exact ⟨h1, List.mem_cons_of_mem _ h2, h3⟩
    | some p =>
      rw [show itemsFrom s oid (e :: rest) n =
          ⟨n, oid, e.1, e.2, p.price⟩ :: itemsFrom s oid rest (n + 1) by
        conv_lhs => rw [itemsFrom]
        rw [hp]]
      constructor
      · simpa using (ih (n + 1)).1
      · intro oi hoi
        rcases List.mem_cons.mp hoi with rfl | hmem
        · exact ⟨rfl, by simp, p, by simpa using hp, rfl⟩
        · obtain ⟨h1, h2, h3⟩ := (ih (n + 1)).2 oi hmem
          exact ⟨h1, List.mem_cons_of_mem _ h2, h3⟩

/-- Claim C10 as stated: a place-order call by a buyer is rejected only
when the cart is empty or no cart entry maps to an active product. -/
def ClaimC10_rejectOnly : Prop :=
  ∀ (s : St) (u : User) (dest : String) (dlat dlng dacc : Option Rat)
    (cart : List (Nat × Int)) (oid : String),
    u.role = "buyer" →
    (order_place s u dest dlat dlng dacc cart oid).2 ≠ Res.ok →
    cart = [] ∨ ∀ e ∈ cart, (activeProductById? s e.1).isNone

/-- A second approved farmer with an active product, so that a cart can
span two farmers. -/
def uFarmer2 : User := ⟨5, "farmer", true, some "Gus", some "Kano", none, none, none⟩

/-- Catalog with products of two different farmers. -/
def stTwoFarmers : St :=
  { stNQ with
    users := [uBuyer, uFarmer, uTrans1, uTrans2, uFarmer2],
    products := [pYam, ⟨3, 5, "Ginger", "bag", 300, true⟩],
    orders := [],
    order_items := [] }

/-- Counterexample for claim C10: a cart holding active products of two
different farmers is rejected even though it is nonempty and every entry
maps to an active product. -/
theorem order_place_reject_counterexample : ¬ ClaimC10_rejectOnly := by
  intro h
  have hinst := h stTwoFarmers uBuyer "Abuja" none none none [(1, 1), (3, 1)] "ORD-9"
    rfl (by decide)
  rcases hinst with h1 | h2
  · cases h1
  · exact absurd (h2 (1, 1) (by simp)) (by decide)

/-- Claim C10 (amended).  For a buyer with a fresh order id: the call is
rejected, with no row created, exactly when the cart is empty, no cart
entry maps to an active product, or the active products span more than
one farmer; on success the inactive entries are silently skipped (so the
order may carry fewer items than the cart), and every created item
snapshots the matching active product's current price. -/
theorem order_place_contract (s : St) (u : User) (dest : String)
    (dlat dlng dacc : Option Rat) (cart : List (Nat × Int)) (oid : String)
    (hrole : u.role = "buyer")
    (hfresh : s.orders.any (fun o => o.id = oid) = false) :
    ((order_place s u dest dlat dlng dacc cart oid).2 ≠ .ok →
      (order_place s u dest dlat dlng dacc cart oid).1 = s ∧
      (cart = [] ∨ cart.all (fun e => (activeProductById? s e.1).isNone) = true ∨
        (cart.filterMap (fun e =>
          (activeProductById? s e.1).map (fun p => p.farmer_user_id))).dedup.length ≠ 1)) ∧
    ((order_place s u dest dlat dlng dacc cart oid).2 = .ok →
      (order_place s u dest dlat dlng dacc cart oid).1.order_items =
        s.order_items ++ itemsFrom s oid cart s.next_item_id ∧
      (itemsFrom s oid cart s.next_item_id).length ≤ cart.length ∧
      (∀ oi ∈ itemsFrom s oid cart s.next_item_id,
        oi.order_id = oid ∧ (oi.product_id, oi.qty) ∈ cart ∧
        ∃ p, activeProductById? s oi.product_id = some p ∧
          oi.unit_price = p.price)) := by
  constructor
  · intro hne
    rcases order_place_cases s u dest dlat dlng dacc cart oid with
      ⟨h1, _, h3⟩ | ⟨hok, _⟩
    · refine ⟨h1, ?_⟩
      rcases h3 hrole with h | h | h | h
      · exact Or.inl h
      · exact Or.inr (Or.inl h)
      · exact Or.inr (Or.inr h)
      · rw [hfresh] at h
        cases h
    · exact absurd hok hne
  · intro hok
    rcases order_place_cases s u dest dlat dlng dacc cart oid with
      ⟨_, h2, _⟩ | ⟨_, _, _, _, _, _, _, _, hitems⟩
    · exact absurd hok h2
    · exact ⟨hitems, (itemsFrom_spec s oid cart s.next_item_id).1,
        (itemsFrom_spec s oid cart s.next_item_id).2⟩

/-- Witness for the amended claim C10 at stNQ: placing a one-entry cart
succeeds and appends one order_item snapshotting the product price. -/
theorem order_place_contract_witness :
    (order_place stNQ uBuyer "Abuja" none none none [(1, 2)] "ORD-A2").2 = .ok ∧
    (order_place stNQ uBuyer "Abuja" none none none [(1, 2)] "ORD-A2").1.order_items =
      [⟨1, "ORD-1", 1, 3, 100⟩, ⟨2, "ORD-A2", 1, 2, 100⟩] := by
  have h := order_place_contract stNQ uBuyer "Abuja" none none none [(1, 2)] "ORD-A2"
    rfl (by decide)
  refine ⟨by decide, ?_⟩
  rw [(h.2 (by decide)).1]
  decide


/-- Quote ids are pairwise distinct (the autoincrement primary key). -/
def quoteIdsNodup (s : St) : Prop := (s.quotes.map (fun q => q.id)).Nodup

/-- Order ids are pairwise distinct (the primary key on orders.id). -/
def orderIdsNodup (s : St) : Prop := (s.orders.map (fun o => o.id)).Nodup

/-- Every stored quote id is below the autoincrement counter. -/
def quoteIdsBelow (s : St) : Prop := ∀ q ∈ s.quotes, q.id < s.next_quote_id

/-- A set accepted_quote_id always resolves to a quote of that order. -/
def acceptedWF (s : St) : Prop :=
  ∀ o ∈ s.orders, ∀ qid, o.accepted_quote_id = some qid →
    ∃ q ∈ s.quotes, q.id = qid ∧ q.order_id = o.id

/-- On a QUOTE_ACCEPTED order the accepted quote is ACCEPTED and every
other quote of the order is DECLINED or DELIVERED. -/
def quoteExclusivity (s : St) : Prop :=
  ∀ o ∈ s.orders, o.status = OrderStatus.QUOTE_ACCEPTED →
    ∃ qid, o.accepted_quote_id = some qid ∧
      ∀ q ∈ s.quotes, q.order_id = o.id →
        (q.id = qid → q.status = QuoteStatus.ACCEPTED) ∧
        (q.id ≠ qid → q.status = QuoteStatus.DECLINED ∨ q.status = QuoteStatus.DELIVERED)

/-- The inductive invariant of the marketplace core. -/
def Inv (s : St) : Prop :=
  quoteIdsNodup s ∧ orderIdsNodup s ∧ quoteIdsBelow s ∧ acceptedWF s ∧ quoteExclusivity s

/-- The property claimed for QUOTE_ACCEPTED orders: exactly one ACCEPTED
quote, referenced by accepted_quote_id and belonging to the order, with
every other non-DELIVERED quote of the order DECLINED. -/
def C2prop (s : St) : Prop :=
  ∀ o ∈ s.orders, o.status = OrderStatus.QUOTE_ACCEPTED →
    ∃ q ∈ s.quotes,
      o.accepted_quote_id = some q.id ∧ q.order_id = o.id ∧
      q.status = QuoteStatus.ACCEPTED ∧
      ∀ q2 ∈ s.quotes, q2.order_id = o.id → q2.id ≠ q.id →
        q2.status ≠ QuoteStatus.ACCEPTED ∧
        (q2.status ≠ QuoteStatus.DELIVERED → q2.status = QuoteStatus.DECLINED)

/-- The invariant depends only on orders, quotes and the quote counter. -/
lemma Inv_of_core (s1 s2 : St) (ho : s1.orders = s2.orders) (hq : s1.quotes = s2.quotes)
    (hn : s1.next_quote_id = s2.next_quote_id) (h : Inv s2) : Inv s1 := by
  unfold Inv quoteIdsNodup orderIdsNodup quoteIdsBelow acceptedWF quoteExclusivity at h ⊢
  rw [ho, hq, hn]
  exact h

/-- An id-preserving rewrite of the quote rows keeps the id column. -/
lemma map_quote_ids (g : Quote → Quote) (hid : ∀ q, (g q).id = q.id) (l : List Quote) :
    (l.map g).map (fun q => q.id) = l.map (fun q => q.id) := by
  rw [List.map_map]
  exact List.map_congr_left (fun a _ => hid a)

/-- An id-preserving rewrite of the order rows keeps the id column. -/
lemma map_order_ids (g : Order → Order) (hid : ∀ o, (g o).id = o.id) (l : List Order) :
    (l.map g).map (fun o => o.id) = l.map (fun o => o.id) := by
  rw [List.map_map]
  exact List.map_congr_left (fun a _ => hid a)

/-- Distinct ids identify quote rows. -/
lemma quote_id_inj {l : List Quote} (h : (l.map (fun q => q.id)).Nodup)
    {a b : Quote} (ha : a ∈ l) (hb : b ∈ l) (hab : a.id = b.id) : a = b :=
  List.inj_on_of_nodup_map h ha hb hab

/-- Distinct ids identify order rows. -/
lemma order_id_inj {l : List Order} (h : (l.map (fun o => o.id)).Nodup)
    {a b : Order} (ha : a ∈ l) (hb : b ∈ l) (hab : a.id = b.id) : a = b :=
  List.inj_on_of_nodup_map h ha hb hab

/-- The invariant yields the claimed exclusivity shape. -/
lemma Inv_implies_C2prop (s : St) (h : Inv s) : C2prop s := by
  obtain ⟨hqn, hon, hqb, hwf, hex⟩ := h
  intro o ho hqa
  obtain ⟨qid, haq, hcl⟩ := hex o ho hqa
  obtain ⟨q, hqm, hqid, hqoid⟩ := hwf o ho qid haq
  refine ⟨q, hqm, by rw [haq, hqid], hqoid, (hcl q hqm hqoid).1 hqid, ?_⟩
  intro q2 hq2 hq2oid hq2ne
  have hne : q2.id ≠ qid := by rw [← hqid]; exact hq2ne
  rcases (hcl q2 hq2 hq2oid).2 hne with hd | hd
  · rw [hd]
    exact ⟨by simp, fun _ => rfl⟩
  · rw [hd]
    exact ⟨by simp, fun hcon => absurd rfl hcon⟩


/-- Rewriting one order's status to anything but QUOTE_ACCEPTED keeps
the invariant. -/
lemma Inv_setStatus_nonQA (s : St) (oid : String) (st2 : OrderStatus)
    (hst2 : st2 ≠ OrderStatus.QUOTE_ACCEPTED) (h : Inv s) :
    Inv { s with orders := s.orders.map (fun o2 =>
      if o2.id = oid then { o2 with status := st2 } else o2) } := by
  obtain ⟨hqn, hon, hqb, hwf, hex⟩ := h
  have hid : ∀ o2 : Order,
      ((fun o3 => if o3.id = oid then { o3 with status := st2 } else o3) o2).id = o2.id := by
    intro o2; dsimp only; split <;> rfl
  have hacc : ∀ o2 : Order,
      ((fun o3 => if o3.id = oid then { o3 with status := st2 } else o3) o2).accepted_quote_id =
        o2.accepted_quote_id := by
    intro o2; dsimp only; split <;> rfl
  refine ⟨hqn, ?_, hqb, ?_, ?_⟩
  · unfold orderIdsNodup
    rw [map_order_ids _ hid]
    exact hon
  · intro o2 ho2 qid haq
    obtain ⟨o3, ho3, rfl⟩ := List.mem_map.mp ho2
    rw [hacc] at haq
    obtain ⟨q, hq, hqid, hqoid⟩ := hwf o3 ho3 qid haq
    exact ⟨q, hq, hqid, by rw [hid, hqoid]⟩
  · intro o2 ho2 hqa
    obtain ⟨o3, ho3, rfl⟩ := List.mem_map.mp ho2
    have ho3ne : ¬ o3.id = oid := by
      intro hc
      rw [if_pos hc] at hqa
      exact hst2 hqa
    rw [if_neg ho3ne] at hqa ⊢
    obtain ⟨qid, haq, hcl⟩ := hex o3 ho3 hqa
    exact ⟨qid, haq, hcl⟩

/-- Appending a fresh NEEDS_QUOTES order keeps the invariant. -/
lemma Inv_place (s : St) (oid : String) (buyer : Nat) (org dest : String)
    (hfresh : ∀ o ∈ s.orders, o.id ≠ oid) (h : Inv s) :
    Inv { s with orders := s.orders ++ [⟨oid, buyer, org, dest, .NEEDS_QUOTES, none⟩] } := by
  obtain ⟨hqn, hon, hqb, hwf, hex⟩ := h
  refine ⟨hqn, ?_, hqb, ?_, ?_⟩
  · unfold orderIdsNodup
    dsimp only
    rw [List.map_append]
    refine List.Nodup.append hon (by simp) ?_
    intro x hx hy
    simp only [List.map_cons, List.map_nil, List.mem_singleton] at hy
    obtain ⟨o2, ho2, rfl⟩ := List.mem_map.mp hx
    exact hfresh o2 ho2 hy
  · intro o2 ho2 qid haq
    rcases List.mem_append.mp ho2 with hm | hm
    · exact hwf o2 hm qid haq
    · simp only [List.mem_singleton] at hm
      rw [hm] at haq
      cases haq
  · intro o2 ho2 hqa
    rcases List.mem_append.mp ho2 with hm | hm
    · exact hex o2 hm hqa
    · simp only [List.mem_singleton] at hm
      rw [hm] at hqa
      cases hqa

/-- Appending a fresh SUBMITTED quote for an order that is open for
quotes keeps the invariant. -/
lemma Inv_submit (s : St) (order_id : String) (o : Order) (tid : Nat) (price eta : Int)
    (ho : o ∈ s.orders) (hoid : o.id = order_id) (hst : o.status = OrderStatus.NEEDS_QUOTES)
    (h : Inv s) :
    Inv { s with
      quotes := s.quotes ++ [⟨s.next_quote_id, order_id, tid, price, eta, .SUBMITTED⟩],
      next_quote_id := s.next_quote_id + 1 } := by
  obtain ⟨hqn, hon, hqb, hwf, hex⟩ := h
  refine ⟨?_, hon, ?_, ?_, ?_⟩
  · unfold quoteIdsNodup
    dsimp only
    rw [List.map_append]
    refine List.Nodup.append hqn (by simp) ?_
    intro x hx hy
    simp only [List.map_cons, List.map_nil, List.mem_singleton] at hy
    obtain ⟨q2, hq2, rfl⟩ := List.mem_map.mp hx
    exact Nat.ne_of_lt (hqb q2 hq2) hy
  · intro q2 hq2
    rcases List.mem_append.mp hq2 with hm | hm
    · exact Nat.lt_succ_of_lt (hqb q2 hm)
    · simp only [List.mem_singleton] at hm
      rw [hm]
      exact Nat.lt_succ_self _
  · intro o2 ho2 qid haq
    obtain ⟨q, hq, hqid, hqoid⟩ := hwf o2 ho2 qid haq
    exact ⟨q, List.mem_append_left _ hq, hqid, hqoid⟩
  · intro o2 ho2 hqa
    obtain ⟨qid, haq, hcl⟩ := hex o2 ho2 hqa
    refine ⟨qid, haq, ?_⟩
    intro q2 hq2 hq2oid
    rcases List.mem_append.mp hq2 with hm | hm
    · exact hcl q2 hm hq2oid
    · simp only [List.mem_singleton] at hm
      exfalso
      have ho2ne : o2 ≠ o := by
        intro hc
        rw [hc, hst] at hqa
        cases hqa
      have : o2.id ≠ o.id := by
        intro hc
        exact ho2ne (order_id_inj hon ho2 ho hc)
      apply this
      rw [← hq2oid, hm, hoid]

/-- Declining matching SUBMITTED quotes keeps the invariant. -/
lemma Inv_decline (s : St) (quote_id : Nat) (order_id : String) (h : Inv s) :
    Inv { s with quotes := s.quotes.map (fun q2 =>
      if q2.id = quote_id ∧ q2.order_id = order_id ∧ q2.status = QuoteStatus.SUBMITTED
      then { q2 with status := QuoteStatus.DECLINED } else q2) } := by
  obtain ⟨hqn, hon, hqb, hwf, hex⟩ := h
  have hid : ∀ q2 : Quote,
      ((fun q3 => if q3.id = quote_id ∧ q3.order_id = order_id ∧
          q3.status = QuoteStatus.SUBMITTED
        then { q3 with status := QuoteStatus.DECLINED } else q3) q2).id = q2.id := by
    intro q2; dsimp only; split <;> rfl
  have hoidp : ∀ q2 : Quote,
      ((fun q3 => if q3.id = quote_id ∧ q3.order_id = order_id ∧
          q3.status = QuoteStatus.SUBMITTED
        then { q3 with status := QuoteStatus.DECLINED } else q3) q2).order_id = q2.order_id := by
    intro q2; dsimp only; split <;> rfl
  refine ⟨?_, hon, ?_, ?_, ?_⟩
  · unfold quoteIdsNodup
    rw [map_quote_ids _ hid]
    exact hqn
  · intro q2 hq2
    obtain ⟨q3, hq3, rfl⟩ := List.mem_map.mp hq2
    rw [hid]
    exact hqb q3 hq3
  · intro o2 ho2 qid haq
    obtain ⟨q, hq, hqid, hqoid⟩ := hwf o2 ho2 qid haq
    refine ⟨_, List.mem_map_of_mem _ hq, ?_, ?_⟩
    · rw [hid, hqid]
    · rw [hoidp, hqoid]
  · intro o2 ho2 hqa
    obtain ⟨qid, haq, hcl⟩ := hex o2 ho2 hqa
    refine ⟨qid, haq, ?_⟩
    intro q2 hq2 hq2oid
    obtain ⟨q3, hq3, rfl⟩ := List.mem_map.mp hq2
    rw [hoidp] at hq2oid
    rw [hid]
    obtain ⟨hc1, hc2⟩ := hcl q3 hq3 hq2oid
    by_cases hcond : q3.id = quote_id ∧ q3.order_id = order_id ∧
        q3.status = QuoteStatus.SUBMITTED
    · rw [if_pos hcond]
      constructor
      · intro hqe
        exfalso
        have := hc1 hqe
        rw [this] at hcond
        cases hcond.2.2
      · intro _
        exact Or.inl rfl
    · rw [if_neg hcond]
      exact ⟨hc1, hc2⟩


/-- Marking the accepted quote and a non-QUOTE_ACCEPTED order DELIVERED
keeps the invariant. -/
lemma Inv_deliver (s : St) (order_id : String) (o : Order) (aqid : Nat) (q : Quote)
    (h : Inv s)
    (ho : o ∈ s.orders) (hoid : o.id = order_id)
    (haq : o.accepted_quote_id = some aqid)
    (hqm : q ∈ s.quotes) (hqid : q.id = aqid) :
    Inv { s with
      orders := s.orders.map (fun o2 =>
        if o2.id = order_id then { o2 with status := OrderStatus.DELIVERED } else o2),
      quotes := s.quotes.map (fun q2 =>
        if q2.id = q.id then { q2 with status := QuoteStatus.DELIVERED } else q2) } := by
  obtain ⟨hqn, hon, hqb, hwf, hex⟩ := h
  have hidq : ∀ q2 : Quote,
      ((fun q3 => if q3.id = q.id then { q3 with status := QuoteStatus.DELIVERED } else q3)
        q2).id = q2.id := by
    intro q2; dsimp only; split <;> rfl
  have hoidq : ∀ q2 : Quote,
      ((fun q3 => if q3.id = q.id then { q3 with status := QuoteStatus.DELIVERED } else q3)
        q2).order_id = q2.order_id := by
    intro q2; dsimp only; split <;> rfl
  have hido : ∀ o2 : Order,
      ((fun o3 => if o3.id = order_id then { o3 with status := OrderStatus.DELIVERED } else o3)
        o2).id = o2.id := by
    intro o2; dsimp only; split <;> rfl
  have hacco : ∀ o2 : Order,
      ((fun o3 => if o3.id = order_id then { o3 with status := OrderStatus.DELIVERED } else o3)
        o2).accepted_quote_id = o2.accepted_quote_id := by
    intro o2; dsimp only; split <;> rfl
  have hqorder : q.order_id = o.id := by
    obtain ⟨qq, hqq, hqqid, hqqoid⟩ := hwf o ho aqid haq
    have : qq = q := quote_id_inj hqn hqq hqm (by rw [hqqid, hqid])
    rw [← this]
    exact hqqoid
  refine ⟨?_, ?_, ?_, ?_, ?_⟩
  · unfold quoteIdsNodup
    rw [map_quote_ids _ hidq]
    exact hqn
  · unfold orderIdsNodup
    rw [map_order_ids _ hido]
    exact hon
  · intro q2 hq2
    obtain ⟨q3, hq3, rfl⟩ := List.mem_map.mp hq2
    rw [hidq]
    exact hqb q3 hq3
  · intro o2 ho2 qid2 haq2
    obtain ⟨o3, ho3, rfl⟩ := List.mem_map.mp ho2
    rw [hacco] at haq2
    obtain ⟨q2, hq2, hq2id, hq2oid⟩ := hwf o3 ho3 qid2 haq2
    refine ⟨_, List.mem_map_of_mem _ hq2, ?_, ?_⟩
    · rw [hidq, hq2id]
    · rw [hoidq, hido, hq2oid]
  · intro o2 ho2 hqa
    obtain ⟨o3, ho3, rfl⟩ := List.mem_map.mp ho2
    have ho3ne : ¬ o3.id = order_id := by
      intro hc
      rw [if_pos hc] at hqa
      cases hqa
    rw [if_neg ho3ne] at hqa ⊢
    obtain ⟨qid2, haq2, hcl⟩ := hex o3 ho3 hqa
    refine ⟨qid2, haq2, ?_⟩
    intro q2 hq2 hq2oid
    obtain ⟨q3, hq3, rfl⟩ := List.mem_map.mp hq2
    rw [hoidq] at hq2oid
    rw [hidq]
    have hq3ne : ¬ q3.id = q.id := by
      intro hc
      have hq3q : q3 = q := quote_id_inj hqn hq3 hqm hc
      rw [hq3q, hqorder, hoid] at hq2oid
      exact ho3ne hq2oid.symm
    rw [if_neg hq3ne]
    exact hcl q3 hq3 hq2oid

/-- Accepting a quote of the order re-establishes the invariant,
whatever the order's previous status. -/
lemma Inv_accept (s : St) (order_id : String) (quote_id : Nat) (q : Quote)
    (h : Inv s)
    (hqm : q ∈ s.quotes) (hqid : q.id = quote_id) (hqoid : q.order_id = order_id) :
    Inv { s with
      orders := s.orders.map (fun o2 =>
        if o2.id = order_id
        then { o2 with status := OrderStatus.QUOTE_ACCEPTED,
                       accepted_quote_id := some quote_id }
        else o2),
      quotes := (s.quotes.map (fun q2 =>
          if q2.id = quote_id then { q2 with status := QuoteStatus.ACCEPTED } else q2)).map
        (fun q2 =>
          if q2.order_id = order_id ∧ q2.id ≠ quote_id ∧ q2.status ≠ QuoteStatus.DELIVERED
          then { q2 with status := QuoteStatus.DECLINED } else q2) } := by
  obtain ⟨hqn, hon, hqb, hwf, hex⟩ := h
  have hid1 : ∀ q2 : Quote,
      ((fun q3 => if q3.id = quote_id then { q3 with status := QuoteStatus.ACCEPTED } else q3)
        q2).id = q2.id := by
    intro q2; dsimp only; split <;> rfl
  have hoid1 : ∀ q2 : Quote,
      ((fun q3 => if q3.id = quote_id then { q3 with status := QuoteStatus.ACCEPTED } else q3)
        q2).order_id = q2.order_id := by
    intro q2; dsimp only; split <;> rfl
  have hid2 : ∀ q2 : Quote,
      ((fun q3 => if q3.order_id = order_id ∧ q3.id ≠ quote_id ∧
          q3.status ≠ QuoteStatus.DELIVERED
        then { q3 with status := QuoteStatus.DECLINED } else q3) q2).id = q2.id := by
    intro q2; dsimp only; split <;> rfl
  have hoid2 : ∀ q2 : Quote,
      ((fun q3 => if q3.order_id = order_id ∧ q3.id ≠ quote_id ∧
          q3.status ≠ QuoteStatus.DELIVERED
        then { q3 with status := QuoteStatus.DECLINED } else q3) q2).order_id =
        q2.order_id := by
    intro q2; dsimp only; split <;> rfl
  have hido : ∀ o2 : Order,
      ((fun o3 => if o3.id = order_id
        then { o3 with status := OrderStatus.QUOTE_ACCEPTED,
                       accepted_quote_id := some quote_id }
        else o3) o2).id = o2.id := by
    intro o2; dsimp only; split <;> rfl
  refine ⟨?_, ?_, ?_, ?_, ?_⟩
  · unfold quoteIdsNodup
    rw [map_quote_ids _ hid2, map_quote_ids _ hid1]
    exact hqn
  · unfold orderIdsNodup
    rw [map_order_ids _ hido]
    exact hon
  · intro q2 hq2
    obtain ⟨q3, hq3, rfl⟩ := List.mem_map.mp hq2
    obtain ⟨q4, hq4, rfl⟩ := List.mem_map.mp hq3
    rw [hid2, hid1]
    exact hqb q4 hq4
  · intro o2 ho2 qid2 haq2
    obtain ⟨o3, ho3, rfl⟩ := List.mem_map.mp ho2
    by_cases hc : o3.id = order_id
    · rw [if_pos hc] at haq2 ⊢
      dsimp only at haq2
      cases haq2
      refine ⟨(fun q3 => if q3.order_id = order_id ∧ q3.id ≠ quote_id ∧
          q3.status ≠ QuoteStatus.DELIVERED
          then { q3 with status := QuoteStatus.DECLINED } else q3)
          ((fun q3 => if q3.id = quote_id then { q3 with status := QuoteStatus.ACCEPTED }
            else q3) q), ?_, ?_, ?_⟩
      · exact List.mem_map_of_mem _ (List.mem_map_of_mem _ hqm)
      · rw [hid2, hid1, hqid]
      · rw [hoid2, hoid1, hqoid]
        exact hc.symm
    · rw [if_neg hc] at haq2 ⊢
      obtain ⟨q2, hq2, hq2id, hq2oid⟩ := hwf o3 ho3 qid2 haq2
      refine ⟨_, List.mem_map_of_mem _ (List.mem_map_of_mem _ hq2), ?_, ?_⟩
      · rw [hid2, hid1, hq2id]
      · rw [hoid2, hoid1, hq2oid]
  · intro o2 ho2 hqa
    obtain ⟨o3, ho3, rfl⟩ := List.mem_map.mp ho2
    by_cases hc : o3.id = order_id
    · rw [if_pos hc] at hqa ⊢
      refine ⟨quote_id, rfl, ?_⟩
      intro q2 hq2 hq2oid
      obtain ⟨q3, hq3, rfl⟩ := List.mem_map.mp hq2
      obtain ⟨q4, hq4, rfl⟩ := List.mem_map.mp hq3
      rw [hoid2, hoid1] at hq2oid
      rw [hid2, hid1]
      dsimp only at hq2oid
      by_cases hq4id : q4.id = quote_id
      · rw [if_pos hq4id]
        have hnd : ¬(({ q4 with status := QuoteStatus.ACCEPTED } : Quote).order_id =
            order_id ∧ ({ q4 with status := QuoteStatus.ACCEPTED } : Quote).id ≠ quote_id ∧
            ({ q4 with status := QuoteStatus.ACCEPTED } : Quote).status ≠
              QuoteStatus.DELIVERED) := by
          intro hcc
          exact hcc.2.1 hq4id
        rw [if_neg hnd]
        exact ⟨fun _ => rfl, fun hne => absurd hq4id hne⟩
      · rw [if_neg hq4id]
        by_cases hdel : q4.status = QuoteStatus.DELIVERED
        · have hnd : ¬(q4.order_id = order_id ∧ q4.id ≠ quote_id ∧
              q4.status ≠ QuoteStatus.DELIVERED) := by
            intro hcc
            exact hcc.2.2 hdel
          rw [if_neg hnd]
          exact ⟨fun hcc => absurd hcc hq4id, fun _ => Or.inr hdel⟩
        · have hd : q4.order_id = order_id ∧ q4.id ≠ quote_id ∧
              q4.status ≠ QuoteStatus.DELIVERED := by
            refine ⟨?_, hq4id, hdel⟩
            rw [hq2oid, hc]
          rw [if_pos hd]
          exact ⟨fun hcc => absurd hcc hq4id, fun _ => Or.inl rfl⟩
    · rw [if_neg hc] at hqa ⊢
      obtain ⟨qid2, haq2, hcl⟩ := hex o3 ho3 hqa
      refine ⟨qid2, haq2, ?_⟩
      intro q2 hq2 hq2oid
      obtain ⟨q3, hq3, rfl⟩ := List.mem_map.mp hq2
      obtain ⟨q4, hq4, rfl⟩ := List.mem_map.mp hq3
      rw [hoid2, hoid1] at hq2oid
      rw [hid2, hid1]
      have hq4ne : ¬ q4.id = quote_id := by
        intro hcc
        have : q4 = q := quote_id_inj hqn hq4 hqm (by rw [hcc, hqid])
        rw [this, hqoid] at hq2oid
        exact hc hq2oid.symm
      rw [if_neg hq4ne]
      have hnd : ¬(q4.order_id = order_id ∧ q4.id ≠ quote_id ∧
          q4.status ≠ QuoteStatus.DELIVERED) := by
        intro hcc
        rw [hq2oid] at hcc
        exact hc hcc.1
      rw [if_neg hnd]
      exact hcl q4 hq4 hq2oid


/-- An option-scoped existential over an equation is decidable. -/
instance decidableOptSomeEx {α : Type} (o : Option α) (P : α → Prop) [DecidablePred P] :
    Decidable (∃ x, o = some x ∧ P x) :=
  match o with
  | none => isFalse (by rintro ⟨x, hx, _⟩; cases hx)
  | some a =>
    if h : P a then isTrue ⟨a, rfl, h⟩
    else isFalse (by
      rintro ⟨x, hx, hp⟩
      injection hx with h2
      exact h (h2 ▸ hp))

/-- An option-scoped universal over an equation is decidable. -/
instance decidableOptSomeAll {α : Type} (o : Option α) (P : α → Prop) [DecidablePred P] :
    Decidable (∀ x, o = some x → P x) :=
  match o with
  | none => isTrue (by intro x hx; cases hx)
  | some a =>
    if h : P a then isTrue (by intro x hx; injection hx with h2; exact h2 ▸ h)
    else isFalse (fun hall => h (hall a rfl))

instance (s : St) : Decidable (Inv s) := by
  unfold Inv quoteIdsNodup orderIdsNodup quoteIdsBelow acceptedWF quoteExclusivity
  infer_instance

/-- Claim C2.  In every state satisfying the core invariant, each
QUOTE_ACCEPTED order has exactly one ACCEPTED quote, referenced by its
accepted_quote_id and belonging to it, with every other non-DELIVERED
quote DECLINED; and every operation of the core — order placement, quote
submission, acceptance (in particular) and decline, the three delivery
milestones, chat and location writes — preserves the invariant. -/
theorem quote_exclusivity_invariant (s : St) (h : Inv s) :
    C2prop s ∧ ∀ op : Op, Inv (step s op) := by
  refine ⟨Inv_implies_C2prop s h, ?_⟩
  intro op
  cases op with
  | placeOrder u d la ln ac c oid =>
    show Inv (order_place s u d la ln ac c oid).1
    rcases order_place_cases s u d la ln ac c oid with
      ⟨h1, _⟩ | ⟨_, _, _, _, hany, ⟨org, hords⟩, hq, hn, _⟩
    · rw [h1]; exact h
    · have hfresh : ∀ o ∈ s.orders, o.id ≠ oid := by
        intro o ho hc
        have hin : s.orders.any (fun o2 => o2.id = oid) = true :=
          List.any_eq_true.mpr ⟨o, ho, by simp [hc]⟩
        rw [hany] at hin
        cases hin
      refine Inv_of_core _ _ ?_ ?_ ?_ (Inv_place s oid u.id org d hfresh h)
      · exact hords
      · exact hq
      · exact hn
  | submitQuote u oid p e =>
    show Inv (transport_quote s u oid p e).1
    rcases transport_quote_cases s u oid p e with
      ⟨h1, _⟩ | ⟨_, o, hfind, hst, _, ho2, hq2, hn2⟩
    · rw [h1]; exact h
    · obtain ⟨hom, hoid⟩ := orderById?_some hfind
      refine Inv_of_core _ _ ?_ ?_ ?_ (Inv_submit s oid o u.id p e hom hoid hst h)
      · exact ho2
      · exact hq2
      · exact hn2
  | acceptQuote u qid oid =>
    show Inv (quote_accept s u qid oid).1
    rcases quote_accept_cases s u qid oid with
      ⟨h1, _⟩ | ⟨_, o, q, _, hqf, _, hords, hquotes, hn⟩
    · rw [h1]; exact h
    · obtain ⟨hqm, hqid, hqoid⟩ := quoteOfOrder?_some hqf
      refine Inv_of_core _ _ ?_ ?_ ?_ (Inv_accept s oid qid q h hqm hqid hqoid)
      · exact hords
      · exact hquotes
      · exact hn
  | declineQuote u qid oid =>
    show Inv (quote_decline s u qid oid).1
    rcases quote_decline_cases s u qid oid with
      ⟨h1, _, _⟩ | ⟨_, o, _, hords, hquotes, hn⟩
    · rw [h1]; exact h
    · refine Inv_of_core _ _ ?_ ?_ ?_ (Inv_decline s qid oid h)
      · exact hords
      · exact hquotes
      · exact hn
  | startTrip u oid =>
    show Inv (transport_start_trip s u oid).1
    rcases transport_start_trip_cases s u oid with
      ⟨h1, _⟩ | ⟨_, o, aqid, q, _, _, _, _, _, hords, hq2, hn2⟩
    · rw [h1]; exact h
    · refine Inv_of_core _ _ ?_ ?_ ?_
        (Inv_setStatus_nonQA s oid OrderStatus.IN_TRANSIT (by decide) h)
      · exact hords
      · exact hq2
      · exact hn2
  | arrive u oid =>
    show Inv (transport_arrive s u oid).1
    rcases transport_arrive_cases s u oid with
      ⟨h1, _⟩ | ⟨_, o, aqid, q, _, _, _, _, _, hords, hq2, hn2⟩
    · rw [h1]; exact h
    · refine Inv_of_core _ _ ?_ ?_ ?_
        (Inv_setStatus_nonQA s oid OrderStatus.ARRIVED (by decide) h)
      · exact hords
      · exact hq2
      · exact hn2
  | deliver u oid =>
    show Inv (transport_deliver s u oid).1
    rcases transport_deliver_cases s u oid with
      ⟨h1, _⟩ | ⟨_, o, aqid, q, hfind, _, haq, hqf, _, hords, hquotes, hn2⟩
    · rw [h1]; exact h
    · obtain ⟨hom, hoid⟩ := orderById?_some hfind
      obtain ⟨hqm, hqid, _⟩ := quoteByIdAndTransporter?_some hqf
      refine Inv_of_core _ _ ?_ ?_ ?_ (Inv_deliver s oid o aqid q h hom hoid haq hqm hqid)
      · exact hords
      · exact hquotes
      · exact hn2
  | sendMessage u oid m =>
    show Inv (api_order_send_message s u oid m).1
    obtain ⟨h1, h2, h3⟩ := api_order_send_message_core s u oid m
    exact Inv_of_core _ s h1 h2 h3 h
  | locationPing u oid la ln ac =>
    show Inv (api_order_location s u oid la ln ac).1
    obtain ⟨h1, h2, h3⟩ := api_order_location_core s u oid la ln ac
    exact Inv_of_core _ s h1 h2 h3 h

/-- Witness for claim C2 at stQA: the invariant holds, yields the
exclusivity shape, and survives a concrete step (the transporter starts
the trip). -/
theorem quote_exclusivity_invariant_witness :
    C2prop stQA ∧ Inv (step stQA (Op.startTrip uTrans1 "ORD-1")) := by
  have h := quote_exclusivity_invariant stQA (by decide)
  exact ⟨h.1, h.2 (Op.startTrip uTrans1 "ORD-1")⟩

end Agromath
